import Mathlib

/-!
# Custom solhint rules (`scripts/solhint-custom/index.js`)

A shallow embedding of the rule base class `Base`, of the two rule classes the
module exports (`interface-names` and `leading-underscore`), and proofs about
what they report.

Modelling conventions

* Static class fields (`global`, `ruleId`) and the instance field `ignored`
  hold JavaScript values (`JSVal`), because the source applies `||`, `!` and
  `=== undefined` to them.
* `path.normalize` and `minimatch` are external libraries; they are taken as
  the two fields of a `Host`.
* The reporter is an external object.  It is modelled by its state `σ` and its
  operation `error`, which may fail with an `ε`.  A `World` pairs the state of
  the reporter with the list of invocations of `reporter.error` made so far.
* A method body is a function from the world before the call to a completion
  (normal, or a thrown value) and the world after the call.
-/

namespace SolhintCustom

/-! ## JavaScript values -/

/-- The JavaScript values that the static fields of a rule class can hold. -/
inductive JSVal where
  | undefined
  | null
  | bool (b : Bool)
  | num (n : Int)
  | str (s : String)
  deriving DecidableEq, Repr

/-- ToBoolean: `undefined`, `null`, `false`, `0` and the empty string are falsy. -/
def JSVal.truthy : JSVal → Bool
  | .undefined => false
  | .null => false
  | .bool b => b
  | .num n => n != 0
  | .str s => s != ""

/-- The operator `a || b`: the left operand when it is truthy, else the right one. -/
def JSVal.or (a b : JSVal) : JSVal :=
  if a.truthy then a else b

/-! ## AST nodes -/

/-- A `ContractDefinition` node: the attributes read by the rules. -/
structure ContractDefinitionNode where
  kind : String
  name : String
  deriving DecidableEq, Repr

/-- A `VariableDeclaration` node: the attributes read by the rules. -/
structure VariableDeclarationNode where
  isDeclaredConst : Bool
  visibility : String
  name : String
  deriving DecidableEq, Repr

/-- The node a function definition is enclosed in; `kind` is `none` when the
enclosing node carries no `kind` attribute. -/
structure ParentNode where
  kind : Option String
  deriving DecidableEq, Repr

/-- A `FunctionDefinition` node; `parent` is `none` when the node has no
`parent` reference. -/
structure FunctionDefinitionNode where
  visibility : String
  name : String
  parent : Option ParentNode
  deriving DecidableEq, Repr

/-- The nodes that are handed to the reporter. -/
inductive Node where
  | ContractDefinition (node : ContractDefinitionNode)
  | VariableDeclaration (node : VariableDeclarationNode)
  | FunctionDefinition (node : FunctionDefinitionNode)
  deriving DecidableEq, Repr

/-! ## Reporter, world and completions -/

/-- The triple passed to `reporter.error`. -/
structure Violation where
  node : Node
  ruleId : JSVal
  message : String
  deriving DecidableEq, Repr

/-- The external reporter: `error node ruleId message` maps the state of the
reporter to a result (it may fail) and a new state. -/
structure Reporter (σ ε : Type) where
  error : Node → JSVal → String → σ → Except ε Unit × σ

/-- The state of the reporter together with the invocations of `reporter.error`
made so far, oldest first. -/
structure World (σ : Type) where
  reporterState : σ
  calls : List Violation

/-- Values thrown while code of the module runs. -/
inductive Thrown (ε : Type) where
  | Error (message : String)
  | TypeError
  | fromReporter (e : ε)
  deriving DecidableEq, Repr

/-- How a statement ends. -/
inductive Completion (ε : Type) where
  | normal
  | throw (t : Thrown ε)
  deriving DecidableEq, Repr

/-- The call `reporter.error(node, ruleId, message)`: the invocation is
recorded, the reporter runs, and a failure of the reporter is thrown on. -/
def Reporter.invoke {σ ε : Type} (r : Reporter σ ε) (node : Node) (ruleId : JSVal)
    (message : String) (w : World σ) : Completion ε × World σ :=
  let calls := w.calls ++ [⟨node, ruleId, message⟩]
  match r.error node ruleId message w.reporterState with
  | (.ok _, s) => (.normal, ⟨s, calls⟩)
  | (.error e, s) => (.throw (.fromReporter e), ⟨s, calls⟩)

/-- Statement sequencing: the second statement runs only when the first one
completes normally. -/
def seq {σ ε : Type} (first second : World σ → Completion ε × World σ)
    (w : World σ) : Completion ε × World σ :=
  match first w with
  | (.normal, w1) => second w1
  | (.throw t, w1) => (.throw t, w1)

/-- A reporter with no state of its own that never fails; what it was handed is
read from the recorded invocations of the world. -/
def Reporter.silent : Reporter Unit Empty :=
  ⟨fun _ _ _ s => (.ok (), s)⟩

/-- A reporter whose operation fails at every invocation. -/
def Reporter.failing : Reporter Unit String :=
  ⟨fun _ _ _ s => (.error "reporter failure", s)⟩

/-! ## External libraries -/

/-- The library functions `path.normalize(p)` and `minimatch(p, pattern)`. -/
structure Host where
  normalize : String → String
  minimatch : String → String → Bool

/-- An environment for evaluating examples: paths are kept as given, and the
pattern `test/**/*` matches the paths that start with `test/` and go on. -/
def Host.sample : Host where
  normalize := fun p => p
  minimatch := fun p pattern =>
    pattern == "test/**/*" && ("test/".data.isPrefixOf p.data && 5 < p.data.length)

/-! ## `Base` -/

/-- The module constant `ignore`. -/
def ignore : List String := ["test/**/*"]

/-- The static fields of a rule class (`this.constructor`); a field that the
class does not declare reads as `undefined`. -/
structure RuleKind where
  global : JSVal
  ruleId : JSVal
  deriving DecidableEq, Repr

/-- The fields of an instance of `Base`. -/
structure Base (σ ε : Type) where
  reporter : Reporter σ ε
  ignored : JSVal
  ruleId : JSVal

/-- `constructor(reporter, config, source, fileName)` for an instance of the
rule class `kind`. -/
def Base.constructor {σ ε κ : Type} (host : Host) (kind : RuleKind) (reporter : Reporter σ ε)
    (_config : κ) (_source : String) (fileName : String) : Except (Thrown ε) (Base σ ε) :=
  let ignored :=
    JSVal.or kind.global (.bool (ignore.any fun p => host.minimatch (host.normalize fileName) p))
  let ruleId := kind.ruleId
  if ruleId = .undefined then
    .error (.Error "missing ruleId static property")
  else
    .ok { reporter := reporter, ignored := ignored, ruleId := ruleId }

/-- `error(node, message)`. -/
def Base.error {σ ε : Type} (this : Base σ ε) (node : Node) (message : String)
    (w : World σ) : Completion ε × World σ :=
  if !this.ignored.truthy then
    this.reporter.invoke node this.ruleId message w
  else
    (.normal, w)

/-! ## Regular expressions -/

/-- The test `/^I[A-Z]/.test(name)`: the first character is `I` and the second
one is an upper-case letter from `A` to `Z`. -/
def testIUpper (name : String) : Bool :=
  match name.data with
  | c0 :: c1 :: _ => c0 == 'I' && (decide ('A' ≤ c1) && decide (c1 ≤ 'Z'))
  | _ => false

/-- The test `/^_/.test(name)`: the first character is an underscore. -/
def testUnderscore (name : String) : Bool :=
  match name.data with
  | c0 :: _ => c0 == '_'
  | [] => false

/-! ## The rule class `interface-names` -/

namespace InterfaceNames

/-- The static fields of the class: `ruleId` is declared, `global` is not. -/
def kind : RuleKind := ⟨.undefined, .str "interface-names"⟩

/-- The callback `ContractDefinition(node)`. -/
def ContractDefinition {σ ε : Type} (this : Base σ ε) (node : ContractDefinitionNode)
    (w : World σ) : Completion ε × World σ :=
  if node.kind == "interface" && !testIUpper node.name then
    this.error (.ContractDefinition node) "Interface names should have a capital I prefix" w
  else
    (.normal, w)

end InterfaceNames

/-! ## The rule class `leading-underscore` -/

namespace LeadingUnderscore

/-- The static fields of the class: `ruleId` is declared, `global` is not. -/
def kind : RuleKind := ⟨.undefined, .str "leading-underscore"⟩

/-- The callback `VariableDeclaration(node)`. -/
def VariableDeclaration {σ ε : Type} (this : Base σ ε) (node : VariableDeclarationNode)
    (w : World σ) : Completion ε × World σ :=
  if node.isDeclaredConst then
    if testUnderscore node.name then
      this.error (.VariableDeclaration node)
        "Constant variables should not have leading underscore" w
    else
      (.normal, w)
  else if node.visibility == "private" && !testUnderscore node.name then
    this.error (.VariableDeclaration node)
      "Non-constant private variables must have leading underscore" w
  else
    (.normal, w)

/-- The expression `node.parent.kind`: reading `kind` throws a `TypeError` when
`node.parent` is `undefined`. -/
def parentKind {ε : Type} (node : FunctionDefinitionNode) : Except (Thrown ε) (Option String) :=
  match node.parent with
  | some p => .ok p.kind
  | none => .error .TypeError

/-- The condition of the first `if` of `FunctionDefinition`, with the operands
of `||` and `&&` evaluated from left to right and only when needed:
`node.visibility === 'private' ||
 (node.visibility === 'internal' && node.parent.kind !== 'library')`. -/
def mustHaveUnderscore {ε : Type} (node : FunctionDefinitionNode) : Except (Thrown ε) Bool :=
  if node.visibility == "private" then .ok true
  else if node.visibility == "internal" then
    match parentKind node with
    | .ok k => .ok (k != some "library")
    | .error t => .error t
  else .ok false

/-- The condition of the second `if` of `FunctionDefinition`:
`node.visibility === 'internal' && node.parent.kind === 'library'`. -/
def mustNotHaveUnderscore {ε : Type} (node : FunctionDefinitionNode) : Except (Thrown ε) Bool :=
  if node.visibility == "internal" then
    match parentKind node with
    | .ok k => .ok (k == some "library")
    | .error t => .error t
  else .ok false

/-- The first `if` statement of `FunctionDefinition(node)`. -/
def FunctionDefinition.first {σ ε : Type} (this : Base σ ε) (node : FunctionDefinitionNode)
    (w : World σ) : Completion ε × World σ :=
  match mustHaveUnderscore node with
  | .error t => (.throw t, w)
  | .ok true =>
    if !testUnderscore node.name then
      this.error (.FunctionDefinition node)
        "Private and internal functions must have leading underscore" w
    else
      (.normal, w)
  | .ok false => (.normal, w)

/-- The second `if` statement of `FunctionDefinition(node)`. -/
def FunctionDefinition.second {σ ε : Type} (this : Base σ ε) (node : FunctionDefinitionNode)
    (w : World σ) : Completion ε × World σ :=
  match mustNotHaveUnderscore node with
  | .error t => (.throw t, w)
  | .ok true =>
    if testUnderscore node.name then
      this.error (.FunctionDefinition node)
        "Library internal functions should not have leading underscore" w
    else
      (.normal, w)
  | .ok false => (.normal, w)

/-- The callback `FunctionDefinition(node)`: its two `if` statements in sequence. -/
def FunctionDefinition {σ ε : Type} (this : Base σ ε) (node : FunctionDefinitionNode) :
    World σ → Completion ε × World σ :=
  seq (FunctionDefinition.first this node) (FunctionDefinition.second this node)

/-- The variant of `FunctionDefinition(node)` that the specification compares
the callback with: the second `if` statement is the `else if` of the first. -/
def FunctionDefinitionElseIf {σ ε : Type} (this : Base σ ε) (node : FunctionDefinitionNode)
    (w : World σ) : Completion ε × World σ :=
  match mustHaveUnderscore node with
  | .error t => (.throw t, w)
  | .ok true =>
    if !testUnderscore node.name then
      this.error (.FunctionDefinition node)
        "Private and internal functions must have leading underscore" w
    else
      (.normal, w)
  | .ok false =>
    match mustNotHaveUnderscore node with
    | .error t => (.throw t, w)
    | .ok true =>
      if testUnderscore node.name then
        this.error (.FunctionDefinition node)
          "Library internal functions should not have leading underscore" w
      else
        (.normal, w)
    | .ok false => (.normal, w)

end LeadingUnderscore

/-- The array `module.exports`: the rule classes of the module. -/
def exports : List RuleKind := [InterfaceNames.kind, LeadingUnderscore.kind]

/-! ## Methods as transformers of the receiver and the world

The definitions above take the receiver `this` as an argument and return the
world.  The ones below run the same method bodies on a state that holds the
fields of the receiver as well, so that a statement can change them: they
return the receiver as it is after the call.
-/

namespace Stateful

/-- The state a method runs in: the fields of its receiver `this` and the world. -/
structure State (σ ε : Type) where
  this : Base σ ε
  world : World σ

/-- Statement sequencing: the second statement runs, in the state left by the
first, only when the first one completes normally. -/
def seq {σ ε : Type} (first second : State σ ε → Completion ε × State σ ε)
    (st : State σ ε) : Completion ε × State σ ε :=
  match first st with
  | (.normal, st1) => second st1
  | (.throw t, st1) => (.throw t, st1)

/-- `error(node, message)`: the fields of the receiver are read; the reporter is
handed `node`, `this.ruleId` and `message` and acts on the world. -/
def error {σ ε : Type} (node : Node) (message : String) (st : State σ ε) :
    Completion ε × State σ ε :=
  if !st.this.ignored.truthy then
    match st.this.reporter.invoke node st.this.ruleId message st.world with
    | (c, w) => (c, { st with world := w })
  else
    (.normal, st)

/-- The callback `ContractDefinition(node)` of `interface-names`. -/
def ContractDefinition {σ ε : Type} (node : ContractDefinitionNode) (st : State σ ε) :
    Completion ε × State σ ε :=
  if node.kind == "interface" && !testIUpper node.name then
    error (.ContractDefinition node) "Interface names should have a capital I prefix" st
  else
    (.normal, st)

/-- The callback `VariableDeclaration(node)` of `leading-underscore`. -/
def VariableDeclaration {σ ε : Type} (node : VariableDeclarationNode) (st : State σ ε) :
    Completion ε × State σ ε :=
  if node.isDeclaredConst then
    if testUnderscore node.name then
      error (.VariableDeclaration node)
        "Constant variables should not have leading underscore" st
    else
      (.normal, st)
  else if node.visibility == "private" && !testUnderscore node.name then
    error (.VariableDeclaration node)
      "Non-constant private variables must have leading underscore" st
  else
    (.normal, st)

/-- The first `if` statement of `FunctionDefinition(node)`. -/
def FunctionDefinition.first {σ ε : Type} (node : FunctionDefinitionNode) (st : State σ ε) :
    Completion ε × State σ ε :=
  match LeadingUnderscore.mustHaveUnderscore node with
  | .error t => (.throw t, st)
  | .ok true =>
    if !testUnderscore node.name then
      error (.FunctionDefinition node)
        "Private and internal functions must have leading underscore" st
    else
      (.normal, st)
  | .ok false => (.normal, st)

/-- The second `if` statement of `FunctionDefinition(node)`. -/
def FunctionDefinition.second {σ ε : Type} (node : FunctionDefinitionNode) (st : State σ ε) :
    Completion ε × State σ ε :=
  match LeadingUnderscore.mustNotHaveUnderscore node with
  | .error t => (.throw t, st)
  | .ok true =>
    if testUnderscore node.name then
      error (.FunctionDefinition node)
        "Library internal functions should not have leading underscore" st
    else
      (.normal, st)
  | .ok false => (.normal, st)

/-- The callback `FunctionDefinition(node)` of `leading-underscore`. -/
def FunctionDefinition {σ ε : Type} (node : FunctionDefinitionNode) :
    State σ ε → Completion ε × State σ ε :=
  seq (FunctionDefinition.first node) (FunctionDefinition.second node)

end Stateful

/-! ## Lemmas on `Base` -/

/-- With a falsy left operand, `a || b` is `b`. -/
theorem JSVal.or_of_falsy (a b : JSVal) (h : a.truthy = false) : JSVal.or a b = b := by
  simp [JSVal.or, h]

/-- Construction succeeds when the class declares a `ruleId`, and the fields of
the instance are the ones the constructor assigns. -/
theorem Base.constructor_declared {σ ε κ : Type} (host : Host) (kind : RuleKind)
    (reporter : Reporter σ ε) (config : κ) (source fileName : String)
    (hid : kind.ruleId ≠ .undefined) :
    Base.constructor host kind reporter config source fileName =
      .ok ⟨reporter,
        JSVal.or kind.global
          (.bool (ignore.any fun p => host.minimatch (host.normalize fileName) p)),
        kind.ruleId⟩ := by
  unfold Base.constructor
  simp [hid]

/-- An ignored instance reports nothing: the world is left as it is. -/
theorem Base.error_of_ignored {σ ε : Type} (this : Base σ ε) (node : Node) (message : String)
    (w : World σ) (h : this.ignored.truthy = true) :
    this.error node message w = (.normal, w) := by
  simp [Base.error, h]

/-- An instance that is not ignored passes the call on to the reporter. -/
theorem Base.error_of_not_ignored {σ ε : Type} (this : Base σ ε) (node : Node)
    (message : String) (w : World σ) (h : this.ignored.truthy = false) :
    this.error node message w = this.reporter.invoke node this.ruleId message w := by
  simp [Base.error, h]

/-- One invocation of the reporter adds exactly its triple to the recorded calls,
whether the reporter fails or not. -/
theorem Reporter.invoke_calls {σ ε : Type} (r : Reporter σ ε) (node : Node) (ruleId : JSVal)
    (message : String) (w : World σ) :
    (r.invoke node ruleId message w).2.calls = w.calls ++ [⟨node, ruleId, message⟩] := by
  unfold Reporter.invoke
  split <;> rfl

/-- A rule class whose `global` is truthy yields instances that are ignored for
every file, so that `error` never reaches the reporter. -/
theorem Base.constructor_global_ignored {σ ε κ : Type} (host : Host) (id : String)
    (reporter : Reporter σ ε) (config : κ) (source fileName : String) :
    ∃ inst, Base.constructor host ⟨.bool true, .str id⟩ reporter config source fileName
        = .ok inst ∧
      inst.ignored = .bool true ∧
      ∀ node message w, inst.error node message w = (.normal, w) := by
  refine ⟨_, Base.constructor_declared host _ reporter config source fileName (by simp), ?_, ?_⟩
  · simp [JSVal.or, JSVal.truthy]
  · intro node message w
    exact Base.error_of_ignored _ node message w (by simp [JSVal.or, JSVal.truthy])

/-- The fields of a constructed instance. -/
theorem Base.constructor_fields {σ ε κ : Type} {host : Host} {kind : RuleKind}
    {reporter : Reporter σ ε} {config : κ} {source fileName : String} {inst : Base σ ε}
    (h : Base.constructor host kind reporter config source fileName = .ok inst) :
    inst.reporter = reporter ∧ inst.ruleId = kind.ruleId ∧
      inst.ignored = JSVal.or kind.global
        (.bool (ignore.any fun p => host.minimatch (host.normalize fileName) p)) := by
  unfold Base.constructor at h
  by_cases hid : kind.ruleId = .undefined
  · simp [hid] at h
  · simp only [hid, if_false] at h
    cases h
    exact ⟨rfl, rfl, rfl⟩

/-- A list is never equal to itself with one more element at the end. -/
theorem ne_append_singleton {α : Type} (l : List α) (a : α) : l ≠ l ++ [a] := by
  intro h
  have := congrArg List.length h
  simp at this

/-! ## Lemmas on the regular expressions -/

/-- What `/^I[A-Z]/` accepts. -/
theorem testIUpper_iff (name : String) :
    testIUpper name = true ↔
      ∃ c rest, name.data = 'I' :: c :: rest ∧ 'A' ≤ c ∧ c ≤ 'Z' := by
  unfold testIUpper
  constructor
  · intro h
    split at h
    · next c0 c1 rest heq =>
      simp only [Bool.and_eq_true, beq_iff_eq, decide_eq_true_eq] at h
      exact ⟨c1, rest, by rw [heq, h.1], h.2.1, h.2.2⟩
    · cases h
  · rintro ⟨c, rest, heq, h1, h2⟩
    rw [heq]
    simp [h1, h2]

/-- What `/^_/` accepts. -/
theorem testUnderscore_iff (name : String) :
    testUnderscore name = true ↔ ∃ rest, name.data = '_' :: rest := by
  unfold testUnderscore
  constructor
  · intro h
    split at h
    · next c0 rest heq =>
      simp only [beq_iff_eq] at h
      exact ⟨rest, by rw [heq, h]⟩
    · cases h
  · rintro ⟨rest, heq⟩
    rw [heq]
    simp

/-- The test `/^I[A-Z]/` looks at the first two characters only. -/
theorem testIUpper_take_two (a b : String) (h : a.data.take 2 = b.data.take 2) :
    testIUpper a = testIUpper b := by
  unfold testIUpper
  rcases ha : a.data with _ | ⟨a0, _ | ⟨a1, ra⟩⟩ <;>
    rcases hb : b.data with _ | ⟨b0, _ | ⟨b1, rb⟩⟩ <;>
    simp_all

/-- A name shorter than two characters is rejected by `/^I[A-Z]/`. -/
theorem testIUpper_short (name : String) (h : name.length < 2) : testIUpper name = false := by
  unfold testIUpper
  have hl : name.data.length < 2 := h
  rcases hn : name.data with _ | ⟨a0, _ | ⟨a1, ra⟩⟩
  · rfl
  · rfl
  · rw [hn] at hl
    simp only [List.length_cons] at hl
    omega

/-! ## Claims on `Base` -/

/-- C1 (evaluation at a failing input): for the rule class with `global = true`
and `ruleId = 'global-rule'` and the file `contracts/Token.sol`, which matches
no ignore pattern, the constructed instance is ignored and
`error(node, 'msg')` makes no invocation of the reporter. -/
theorem global_rule_error_not_forwarded :
    ∃ inst : Base Unit Empty,
      Base.constructor Host.sample ⟨.bool true, .str "global-rule"⟩ Reporter.silent ()
        "" "contracts/Token.sol" = .ok inst ∧
      (ignore.any fun p => Host.sample.minimatch (Host.sample.normalize "contracts/Token.sol") p)
        = false ∧
      inst.ignored = .bool true ∧
      inst.error (.ContractDefinition ⟨"contract", "Token"⟩) "msg" ⟨(), []⟩
        = (.normal, ⟨(), []⟩) :=
  ⟨_, rfl, by decide, rfl, rfl⟩

/-- C2: for a rule class that is not global and declares a `ruleId`, and a file
whose normalized path matches a pattern of `ignore` (which holds the single
pattern `test/**/*`), construction yields an instance whose `ignored` is `true`,
and `error(node, message)` completes normally and leaves the world unchanged:
no invocation of the reporter is made and the state of the reporter is kept. -/
theorem error_noop_on_ignored_path {σ ε κ : Type} (host : Host) (kind : RuleKind)
    (reporter : Reporter σ ε) (config : κ) (source fileName : String)
    (hglobal : kind.global.truthy = false) (hid : kind.ruleId ≠ .undefined)
    (hmatch : (ignore.any fun p => host.minimatch (host.normalize fileName) p) = true) :
    ignore = ["test/**/*"] ∧
    ∃ inst, Base.constructor host kind reporter config source fileName = .ok inst ∧
      inst.ignored = .bool true ∧
      ∀ node message (w : World σ),
        inst.error node message w = (.normal, w) ∧
        (inst.error node message w).2.calls = w.calls ∧
        (inst.error node message w).2.reporterState = w.reporterState := by
  refine ⟨rfl, _, Base.constructor_declared host kind reporter config source fileName hid, ?_, ?_⟩
  · rw [JSVal.or_of_falsy _ _ hglobal, hmatch]
  · intro node message w
    have h : Base.error ⟨reporter,
        JSVal.or kind.global
          (.bool (ignore.any fun p => host.minimatch (host.normalize fileName) p)),
        kind.ruleId⟩ node message w = (.normal, w) :=
      Base.error_of_ignored _ node message w (by
        show (JSVal.or _ _).truthy = _
        rw [JSVal.or_of_falsy _ _ hglobal, hmatch]; rfl)
    simp [h]

/-- Witness for C2: the class `interface-names` and the file `test/Foo.sol`. -/
theorem error_noop_on_ignored_path_witness :
    ignore = ["test/**/*"] ∧
    ∃ inst : Base Unit Empty,
      Base.constructor Host.sample InterfaceNames.kind Reporter.silent () "" "test/Foo.sol"
        = .ok inst ∧
      inst.ignored = .bool true ∧
      ∀ node message (w : World Unit),
        inst.error node message w = (.normal, w) ∧
        (inst.error node message w).2.calls = w.calls ∧
        (inst.error node message w).2.reporterState = w.reporterState :=
  error_noop_on_ignored_path Host.sample InterfaceNames.kind Reporter.silent () "" "test/Foo.sol"
    (by decide) (by decide) (by decide)

/-- C3: for a rule class that is not global and declares a `ruleId`, and a file
whose normalized path matches no pattern of `ignore`, construction yields an
instance whose `ignored` is `false` and whose `ruleId` is the one of the class,
and each call `error(node, message)` is exactly one invocation of the reporter,
with the triple `(node, ruleId, message)`: the recorded calls grow by that
triple alone. -/
theorem error_forwards_on_other_path {σ ε κ : Type} (host : Host) (kind : RuleKind)
    (reporter : Reporter σ ε) (config : κ) (source fileName : String)
    (hglobal : kind.global.truthy = false) (hid : kind.ruleId ≠ .undefined)
    (hmatch : (ignore.any fun p => host.minimatch (host.normalize fileName) p) = false) :
    ∃ inst, Base.constructor host kind reporter config source fileName = .ok inst ∧
      inst.ignored = .bool false ∧
      inst.ruleId = kind.ruleId ∧
      ∀ node message (w : World σ),
        inst.error node message w = reporter.invoke node kind.ruleId message w ∧
        (inst.error node message w).2.calls = w.calls ++ [⟨node, kind.ruleId, message⟩] := by
  refine ⟨_, Base.constructor_declared host kind reporter config source fileName hid, ?_, rfl, ?_⟩
  · rw [JSVal.or_of_falsy _ _ hglobal, hmatch]
  · intro node message w
    have h : Base.error ⟨reporter,
        JSVal.or kind.global
          (.bool (ignore.any fun p => host.minimatch (host.normalize fileName) p)),
        kind.ruleId⟩ node message w = reporter.invoke node kind.ruleId message w :=
      Base.error_of_not_ignored _ node message w
        (by
        show (JSVal.or _ _).truthy = _
        rw [JSVal.or_of_falsy _ _ hglobal, hmatch]; rfl)
    rw [h]
    exact ⟨rfl, Reporter.invoke_calls reporter node kind.ruleId message w⟩

/-- Witness for C3: the class `leading-underscore` and the file `contracts/Token.sol`. -/
theorem error_forwards_on_other_path_witness :
    ∃ inst : Base Unit Empty,
      Base.constructor Host.sample LeadingUnderscore.kind Reporter.silent () ""
        "contracts/Token.sol" = .ok inst ∧
      inst.ignored = .bool false ∧
      inst.ruleId = LeadingUnderscore.kind.ruleId ∧
      ∀ node message (w : World Unit),
        inst.error node message w
          = Reporter.silent.invoke node LeadingUnderscore.kind.ruleId message w ∧
        (inst.error node message w).2.calls
          = w.calls ++ [⟨node, LeadingUnderscore.kind.ruleId, message⟩] :=
  error_forwards_on_other_path Host.sample LeadingUnderscore.kind Reporter.silent () ""
    "contracts/Token.sol" (by decide) (by decide) (by decide)

/-- C4: for a rule class that declares no `ruleId` (it reads as `undefined`),
construction throws `Error('missing ruleId static property')` and yields no
instance, whatever the value of `global`, the reporter, the config, the source
text and the file name. -/
theorem constructor_fails_without_ruleId {σ ε κ : Type} (host : Host) (global : JSVal)
    (reporter : Reporter σ ε) (config : κ) (source fileName : String) :
    Base.constructor host ⟨global, .undefined⟩ reporter config source fileName
        = .error (.Error "missing ruleId static property") ∧
      ∀ inst, Base.constructor host ⟨global, .undefined⟩ reporter config source fileName
        ≠ .ok inst := by
  have h : Base.constructor host ⟨global, .undefined⟩ reporter config source fileName
      = .error (.Error "missing ruleId static property") := by
    simp [Base.constructor]
  refine ⟨h, ?_⟩
  intro inst hc
  rw [h] at hc
  cases hc

/-! ## Claims on the rule `interface-names` -/

/-- What `ContractDefinition` does on an instance that is not ignored. -/
theorem InterfaceNames.ContractDefinition_live {σ ε : Type} (this : Base σ ε)
    (node : ContractDefinitionNode) (w : World σ) (h : this.ignored.truthy = false) :
    InterfaceNames.ContractDefinition this node w =
      if node.kind = "interface" ∧ testIUpper node.name = false then
        this.reporter.invoke (.ContractDefinition node) this.ruleId
          "Interface names should have a capital I prefix" w
      else (.normal, w) := by
  unfold InterfaceNames.ContractDefinition
  rw [Base.error_of_not_ignored _ _ _ _ h]
  by_cases hk : node.kind = "interface" <;> cases ht : testIUpper node.name <;> simp [hk, ht]

/-- C5: on an instance of `interface-names` that is not ignored, the callback
`ContractDefinition(node)` makes exactly one invocation of the reporter, with
`(node, 'interface-names', 'Interface names should have a capital I prefix')`,
if and only if `node.kind` is `'interface'` and `node.name` does not begin with
`I` followed by a letter from `A` to `Z`; otherwise it does nothing.  An
interface name shorter than two characters is reported, a node of another kind
is not, and two nodes of one kind whose names agree on the first two characters
get the same number of reports. -/
theorem interface_names_reports_iff {σ ε κ : Type} (host : Host) (reporter : Reporter σ ε)
    (config : κ) (source fileName : String) (inst : Base σ ε)
    (hinst : Base.constructor host InterfaceNames.kind reporter config source fileName
      = .ok inst)
    (hlive : inst.ignored.truthy = false) (node : ContractDefinitionNode) (w : World σ) :
    ((InterfaceNames.ContractDefinition inst node w).2.calls
        = w.calls ++ [⟨.ContractDefinition node, .str "interface-names",
            "Interface names should have a capital I prefix"⟩] ↔
      (node.kind = "interface" ∧
        ¬ ∃ c rest, node.name.data = 'I' :: c :: rest ∧ 'A' ≤ c ∧ c ≤ 'Z')) ∧
    (¬ (node.kind = "interface" ∧
        ¬ ∃ c rest, node.name.data = 'I' :: c :: rest ∧ 'A' ≤ c ∧ c ≤ 'Z') →
      InterfaceNames.ContractDefinition inst node w = (.normal, w)) ∧
    (node.kind = "interface" → node.name.length < 2 →
      (InterfaceNames.ContractDefinition inst node w).2.calls
        = w.calls ++ [⟨.ContractDefinition node, .str "interface-names",
            "Interface names should have a capital I prefix"⟩]) ∧
    (node.kind ≠ "interface" →
      InterfaceNames.ContractDefinition inst node w = (.normal, w)) ∧
    (∀ other : ContractDefinitionNode, other.kind = node.kind →
      other.name.data.take 2 = node.name.data.take 2 →
      (InterfaceNames.ContractDefinition inst other w).2.calls.length
        = (InterfaceNames.ContractDefinition inst node w).2.calls.length) := by
  obtain ⟨-, hrule, -⟩ := Base.constructor_fields hinst
  have hid : inst.ruleId = .str "interface-names" := hrule
  have hrun := fun n => InterfaceNames.ContractDefinition_live inst n w hlive
  have hre : (¬ ∃ c rest, node.name.data = 'I' :: c :: rest ∧ 'A' ≤ c ∧ c ≤ 'Z') ↔
      testIUpper node.name = false := by
    rw [← testIUpper_iff]; simp
  rw [hre]
  have hyes : node.kind = "interface" ∧ testIUpper node.name = false →
      (InterfaceNames.ContractDefinition inst node w).2.calls
        = w.calls ++ [⟨.ContractDefinition node, .str "interface-names",
            "Interface names should have a capital I prefix"⟩] := by
    intro hc
    rw [hrun node, if_pos hc, Reporter.invoke_calls, hid]
  have hno : ¬ (node.kind = "interface" ∧ testIUpper node.name = false) →
      InterfaceNames.ContractDefinition inst node w = (.normal, w) := by
    intro hc
    rw [hrun node, if_neg hc]
  refine ⟨⟨?_, hyes⟩, hno, ?_, ?_, ?_⟩
  · intro hcalls
    by_contra hc
    rw [hno hc] at hcalls
    exact ne_append_singleton _ _ hcalls
  · intro hk hlen
    exact hyes ⟨hk, testIUpper_short _ hlen⟩
  · intro hk
    exact hno (fun hc => hk hc.1)
  · intro other hk hpre
    rw [hrun node, hrun other, hk, testIUpper_take_two _ _ hpre]
    split
    · rw [Reporter.invoke_calls, Reporter.invoke_calls]
      simp
    · rfl

/-- Witness for C5: the interface `Foo` in `contracts/Foo.sol` is reported once. -/
theorem interface_names_reports_iff_witness :
    Base.constructor Host.sample InterfaceNames.kind Reporter.silent () "" "contracts/Foo.sol"
      = .ok ⟨Reporter.silent, .bool false, .str "interface-names"⟩ ∧
    (JSVal.bool false).truthy = false ∧
    (InterfaceNames.ContractDefinition
        (⟨Reporter.silent, .bool false, .str "interface-names"⟩ : Base Unit Empty)
        ⟨"interface", "Foo"⟩ ⟨(), []⟩).2.calls
      = [] ++ [⟨.ContractDefinition ⟨"interface", "Foo"⟩, .str "interface-names",
          "Interface names should have a capital I prefix"⟩] :=
  ⟨rfl, rfl,
    (interface_names_reports_iff Host.sample Reporter.silent () "" "contracts/Foo.sol"
      ⟨Reporter.silent, .bool false, .str "interface-names"⟩ rfl rfl
      ⟨"interface", "Foo"⟩ ⟨(), []⟩).1.2
      ⟨rfl, by rintro ⟨c, rest, h, -⟩; simp at h⟩⟩

/-! ## Claims on the rule `leading-underscore`: variables -/

/-- What `VariableDeclaration` does on an instance that is not ignored. -/
theorem LeadingUnderscore.VariableDeclaration_live {σ ε : Type} (this : Base σ ε)
    (node : VariableDeclarationNode) (w : World σ) (h : this.ignored.truthy = false) :
    LeadingUnderscore.VariableDeclaration this node w =
      if node.isDeclaredConst = true then
        if testUnderscore node.name = true then
          this.reporter.invoke (.VariableDeclaration node) this.ruleId
            "Constant variables should not have leading underscore" w
        else (.normal, w)
      else if node.visibility = "private" ∧ testUnderscore node.name = false then
        this.reporter.invoke (.VariableDeclaration node) this.ruleId
          "Non-constant private variables must have leading underscore" w
      else (.normal, w) := by
  unfold LeadingUnderscore.VariableDeclaration
  rw [Base.error_of_not_ignored _ _ _ _ h, Base.error_of_not_ignored _ _ _ _ h]
  cases node.isDeclaredConst <;> by_cases hv : node.visibility = "private" <;>
    cases ht : testUnderscore node.name <;> simp [hv]

/-- C8: on an instance of `leading-underscore` that is not ignored and a
variable declaration that is a declared constant, `VariableDeclaration(node)`
makes exactly one invocation of the reporter, with the message
`'Constant variables should not have leading underscore'`, if and only if
`node.name` starts with `_`; otherwise it does nothing.  The visibility is not
looked at: a private constant without a leading underscore is not reported. -/
theorem constant_reported_iff_underscore {σ ε κ : Type} (host : Host)
    (reporter : Reporter σ ε) (config : κ) (source fileName : String) (inst : Base σ ε)
    (hinst : Base.constructor host LeadingUnderscore.kind reporter config source fileName
      = .ok inst)
    (hlive : inst.ignored.truthy = false) (node : VariableDeclarationNode) (w : World σ)
    (hconst : node.isDeclaredConst = true) :
    ((LeadingUnderscore.VariableDeclaration inst node w).2.calls
        = w.calls ++ [⟨.VariableDeclaration node, .str "leading-underscore",
            "Constant variables should not have leading underscore"⟩] ↔
      ∃ rest, node.name.data = '_' :: rest) ∧
    ((¬ ∃ rest, node.name.data = '_' :: rest) →
      LeadingUnderscore.VariableDeclaration inst node w = (.normal, w)) ∧
    (∀ visibility : String,
      (LeadingUnderscore.VariableDeclaration inst { node with visibility := visibility } w
          ).2.calls.length
        = (LeadingUnderscore.VariableDeclaration inst node w).2.calls.length) ∧
    (node.visibility = "private" → (¬ ∃ rest, node.name.data = '_' :: rest) →
      LeadingUnderscore.VariableDeclaration inst node w = (.normal, w)) := by
  obtain ⟨-, hrule, -⟩ := Base.constructor_fields hinst
  have hid : inst.ruleId = .str "leading-underscore" := hrule
  have hrun := fun n => LeadingUnderscore.VariableDeclaration_live inst n w hlive
  rw [← testUnderscore_iff]
  have hyes : testUnderscore node.name = true →
      (LeadingUnderscore.VariableDeclaration inst node w).2.calls
        = w.calls ++ [⟨.VariableDeclaration node, .str "leading-underscore",
            "Constant variables should not have leading underscore"⟩] := by
    intro hc
    rw [hrun node, if_pos hconst, if_pos hc, Reporter.invoke_calls, hid]
  have hno : ¬ testUnderscore node.name = true →
      LeadingUnderscore.VariableDeclaration inst node w = (.normal, w) := by
    intro hc
    rw [hrun node, if_pos hconst, if_neg hc]
  refine ⟨⟨?_, hyes⟩, hno, ?_, fun _ => hno⟩
  · intro hcalls
    by_contra hc
    rw [hno hc] at hcalls
    exact ne_append_singleton _ _ hcalls
  · intro visibility
    rw [hrun node, hrun { node with visibility := visibility }]
    simp only [hconst, if_true]
    split
    · rw [Reporter.invoke_calls, Reporter.invoke_calls]
      simp
    · rfl

/-- Witness for C8: the constant `_X` is reported once. -/
theorem constant_reported_iff_underscore_witness :
    Base.constructor Host.sample LeadingUnderscore.kind Reporter.silent () ""
        "contracts/Token.sol"
      = .ok ⟨Reporter.silent, .bool false, .str "leading-underscore"⟩ ∧
    (JSVal.bool false).truthy = false ∧
    (⟨true, "public", "_X"⟩ : VariableDeclarationNode).isDeclaredConst = true ∧
    (LeadingUnderscore.VariableDeclaration
        (⟨Reporter.silent, .bool false, .str "leading-underscore"⟩ : Base Unit Empty)
        ⟨true, "public", "_X"⟩ ⟨(), []⟩).2.calls
      = [] ++ [⟨.VariableDeclaration ⟨true, "public", "_X"⟩, .str "leading-underscore",
          "Constant variables should not have leading underscore"⟩] :=
  ⟨rfl, rfl, rfl,
    (constant_reported_iff_underscore Host.sample Reporter.silent () "" "contracts/Token.sol"
      ⟨Reporter.silent, .bool false, .str "leading-underscore"⟩ rfl rfl
      ⟨true, "public", "_X"⟩ ⟨(), []⟩ rfl).1.2 ⟨_, rfl⟩⟩

/-- C9: on an instance of `leading-underscore` that is not ignored and a
variable declaration that is not a declared constant, `VariableDeclaration(node)`
makes exactly one invocation of the reporter, with the message
`'Non-constant private variables must have leading underscore'`, if and only if
`node.visibility` is `'private'` and `node.name` does not start with `_`;
otherwise, and so for every other visibility, it does nothing. -/
theorem private_variable_reported_iff {σ ε κ : Type} (host : Host)
    (reporter : Reporter σ ε) (config : κ) (source fileName : String) (inst : Base σ ε)
    (hinst : Base.constructor host LeadingUnderscore.kind reporter config source fileName
      = .ok inst)
    (hlive : inst.ignored.truthy = false) (node : VariableDeclarationNode) (w : World σ)
    (hconst : node.isDeclaredConst = false) :
    ((LeadingUnderscore.VariableDeclaration inst node w).2.calls
        = w.calls ++ [⟨.VariableDeclaration node, .str "leading-underscore",
            "Non-constant private variables must have leading underscore"⟩] ↔
      (node.visibility = "private" ∧ ¬ ∃ rest, node.name.data = '_' :: rest)) ∧
    (¬ (node.visibility = "private" ∧ ¬ ∃ rest, node.name.data = '_' :: rest) →
      LeadingUnderscore.VariableDeclaration inst node w = (.normal, w)) ∧
    (node.visibility ≠ "private" →
      LeadingUnderscore.VariableDeclaration inst node w = (.normal, w)) := by
  obtain ⟨-, hrule, -⟩ := Base.constructor_fields hinst
  have hid : inst.ruleId = .str "leading-underscore" := hrule
  have hrun := LeadingUnderscore.VariableDeclaration_live inst node w hlive
  have hre : (¬ ∃ rest, node.name.data = '_' :: rest) ↔ testUnderscore node.name = false := by
    rw [← testUnderscore_iff]; simp
  rw [hre]
  have hyes : node.visibility = "private" ∧ testUnderscore node.name = false →
      (LeadingUnderscore.VariableDeclaration inst node w).2.calls
        = w.calls ++ [⟨.VariableDeclaration node, .str "leading-underscore",
            "Non-constant private variables must have leading underscore"⟩] := by
    intro hc
    rw [hrun, if_neg (by simp [hconst]), if_pos hc, Reporter.invoke_calls, hid]
  have hno : ¬ (node.visibility = "private" ∧ testUnderscore node.name = false) →
      LeadingUnderscore.VariableDeclaration inst node w = (.normal, w) := by
    intro hc
    rw [hrun, if_neg (by simp [hconst]), if_neg hc]
  refine ⟨⟨?_, hyes⟩, hno, fun hv => hno (fun hc => hv hc.1)⟩
  intro hcalls
  by_contra hc
  rw [hno hc] at hcalls
  exact ne_append_singleton _ _ hcalls

/-- Witness for C9: the private variable `x` is reported once. -/
theorem private_variable_reported_iff_witness :
    Base.constructor Host.sample LeadingUnderscore.kind Reporter.silent () ""
        "contracts/Token.sol"
      = .ok ⟨Reporter.silent, .bool false, .str "leading-underscore"⟩ ∧
    (JSVal.bool false).truthy = false ∧
    (⟨false, "private", "x"⟩ : VariableDeclarationNode).isDeclaredConst = false ∧
    (LeadingUnderscore.VariableDeclaration
        (⟨Reporter.silent, .bool false, .str "leading-underscore"⟩ : Base Unit Empty)
        ⟨false, "private", "x"⟩ ⟨(), []⟩).2.calls
      = [] ++ [⟨.VariableDeclaration ⟨false, "private", "x"⟩, .str "leading-underscore",
          "Non-constant private variables must have leading underscore"⟩] :=
  ⟨rfl, rfl, rfl,
    (private_variable_reported_iff Host.sample Reporter.silent () "" "contracts/Token.sol"
      ⟨Reporter.silent, .bool false, .str "leading-underscore"⟩ rfl rfl
      ⟨false, "private", "x"⟩ ⟨(), []⟩ rfl).1.2
      ⟨rfl, by rintro ⟨rest, h⟩; simp at h⟩⟩

/-! ## Claims on the rule `leading-underscore`: functions -/

/-- A statement followed by one that does nothing is the statement itself. -/
theorem seq_skip {σ ε : Type} (first second : World σ → Completion ε × World σ) (w : World σ)
    (h : ∀ w1, second w1 = (.normal, w1)) : seq first second w = first w := by
  unfold seq
  rcases hf : first w with ⟨c, w1⟩
  cases c
  · exact h w1
  · rfl

/-- What `FunctionDefinition` does on an instance that is not ignored, for a
node with a parent. -/
theorem LeadingUnderscore.FunctionDefinition_live {σ ε : Type} (this : Base σ ε)
    (node : FunctionDefinitionNode) (p : ParentNode) (w : World σ)
    (h : this.ignored.truthy = false) (hp : node.parent = some p) :
    LeadingUnderscore.FunctionDefinition this node w =
      if (node.visibility = "private" ∨
            (node.visibility = "internal" ∧ p.kind ≠ some "library")) ∧
          testUnderscore node.name = false then
        this.reporter.invoke (.FunctionDefinition node) this.ruleId
          "Private and internal functions must have leading underscore" w
      else if (node.visibility = "internal" ∧ p.kind = some "library") ∧
          testUnderscore node.name = true then
        this.reporter.invoke (.FunctionDefinition node) this.ruleId
          "Library internal functions should not have leading underscore" w
      else (.normal, w) := by
  have herr := fun m w1 => Base.error_of_not_ignored this (.FunctionDefinition node) m w1 h
  by_cases hpriv : node.visibility = "private"
  · have hint : node.visibility ≠ "internal" := by rw [hpriv]; decide
    have hsecond : ∀ w1, LeadingUnderscore.FunctionDefinition.second this node w1
        = (.normal, w1) := by
      intro w1
      simp [LeadingUnderscore.FunctionDefinition.second,
        LeadingUnderscore.mustNotHaveUnderscore, hint]
    unfold LeadingUnderscore.FunctionDefinition
    rw [seq_skip _ _ _ hsecond]
    cases ht : testUnderscore node.name <;>
      simp [LeadingUnderscore.FunctionDefinition.first, LeadingUnderscore.mustHaveUnderscore,
        hpriv, ht, herr]
  · by_cases hint : node.visibility = "internal"
    · by_cases hlib : p.kind = some "library"
      · have hfirst : ∀ w1, LeadingUnderscore.FunctionDefinition.first this node w1
            = (.normal, w1) := by
          intro w1
          simp [LeadingUnderscore.FunctionDefinition.first,
            LeadingUnderscore.mustHaveUnderscore, LeadingUnderscore.parentKind, hpriv, hint,
            hp, hlib]
        unfold LeadingUnderscore.FunctionDefinition seq
        rw [hfirst w]
        cases ht : testUnderscore node.name <;>
          simp [LeadingUnderscore.FunctionDefinition.second,
            LeadingUnderscore.mustNotHaveUnderscore, LeadingUnderscore.parentKind, hpriv,
            hint, hp, hlib, ht, herr]
      · have hb : (p.kind == some "library") = false := by simp [hlib]
        have hnb : (p.kind != some "library") = true := by simp [hlib]
        have hsecond : ∀ w1, LeadingUnderscore.FunctionDefinition.second this node w1
            = (.normal, w1) := by
          intro w1
          simp [LeadingUnderscore.FunctionDefinition.second,
            LeadingUnderscore.mustNotHaveUnderscore, LeadingUnderscore.parentKind, hint,
            hp, hb]
        unfold LeadingUnderscore.FunctionDefinition
        rw [seq_skip _ _ _ hsecond]
        cases ht : testUnderscore node.name <;>
          simp [LeadingUnderscore.FunctionDefinition.first,
            LeadingUnderscore.mustHaveUnderscore, LeadingUnderscore.parentKind, hpriv, hint,
            hp, hlib, hnb, ht, herr]
    · have hfirst : ∀ w1, LeadingUnderscore.FunctionDefinition.first this node w1
          = (.normal, w1) := by
        intro w1
        simp [LeadingUnderscore.FunctionDefinition.first,
          LeadingUnderscore.mustHaveUnderscore, hpriv, hint]
      unfold LeadingUnderscore.FunctionDefinition seq
      rw [hfirst w]
      simp [LeadingUnderscore.FunctionDefinition.second,
        LeadingUnderscore.mustNotHaveUnderscore, hpriv, hint]

/-- The two messages of `FunctionDefinition` are different strings. -/
theorem function_messages_differ :
    "Private and internal functions must have leading underscore"
      ≠ "Library internal functions should not have leading underscore" := by
  decide

/-- Two violations with different messages are different. -/
theorem append_singleton_ne {l : List Violation} {a b : Violation}
    (h : a.message ≠ b.message) : l ++ [a] ≠ l ++ [b] := by
  intro heq
  have h1 : [a] = [b] := List.append_cancel_left heq
  have h2 : a = b := by simpa using h1
  exact h (by rw [h2])

/-- The invocations of the reporter made by `FunctionDefinition` on an instance
that is not ignored, for a node with a parent. -/
theorem LeadingUnderscore.FunctionDefinition_calls {σ ε : Type} (this : Base σ ε)
    (node : FunctionDefinitionNode) (p : ParentNode) (w : World σ)
    (h : this.ignored.truthy = false) (hp : node.parent = some p) :
    (LeadingUnderscore.FunctionDefinition this node w).2.calls =
      w.calls ++
        if (node.visibility = "private" ∨
              (node.visibility = "internal" ∧ p.kind ≠ some "library")) ∧
            testUnderscore node.name = false then
          [⟨.FunctionDefinition node, this.ruleId,
            "Private and internal functions must have leading underscore"⟩]
        else if (node.visibility = "internal" ∧ p.kind = some "library") ∧
            testUnderscore node.name = true then
          [⟨.FunctionDefinition node, this.ruleId,
            "Library internal functions should not have leading underscore"⟩]
        else [] := by
  rw [LeadingUnderscore.FunctionDefinition_live this node p w h hp]
  split
  · rw [Reporter.invoke_calls]
  · split
    · rw [Reporter.invoke_calls]
    · simp

/-- C6: on an instance of `leading-underscore` that is not ignored and a
function definition with a parent, `FunctionDefinition(node)` reports
`'Private and internal functions must have leading underscore'` (one invocation
of the reporter, and no other one) if and only if `node.visibility` is
`'private'`, or is `'internal'` with `node.parent.kind` other than `'library'`,
and `node.name` does not start with `_`; otherwise no invocation carries that
message. -/
theorem function_must_have_underscore_iff {σ ε κ : Type} (host : Host)
    (reporter : Reporter σ ε) (config : κ) (source fileName : String) (inst : Base σ ε)
    (hinst : Base.constructor host LeadingUnderscore.kind reporter config source fileName
      = .ok inst)
    (hlive : inst.ignored.truthy = false) (node : FunctionDefinitionNode) (p : ParentNode)
    (hp : node.parent = some p) (w : World σ) :
    ((LeadingUnderscore.FunctionDefinition inst node w).2.calls
        = w.calls ++ [⟨.FunctionDefinition node, .str "leading-underscore",
            "Private and internal functions must have leading underscore"⟩] ↔
      ((node.visibility = "private" ∨
          (node.visibility = "internal" ∧ p.kind ≠ some "library")) ∧
        ¬ ∃ rest, node.name.data = '_' :: rest)) ∧
    (¬ ((node.visibility = "private" ∨
          (node.visibility = "internal" ∧ p.kind ≠ some "library")) ∧
        ¬ ∃ rest, node.name.data = '_' :: rest) →
      ∀ extra, (LeadingUnderscore.FunctionDefinition inst node w).2.calls = w.calls ++ extra →
        ∀ v ∈ extra,
          v.message ≠ "Private and internal functions must have leading underscore") := by
  obtain ⟨-, hrule, -⟩ := Base.constructor_fields hinst
  have hid : inst.ruleId = .str "leading-underscore" := hrule
  have hcalls := LeadingUnderscore.FunctionDefinition_calls inst node p w hlive hp
  have hre : (¬ ∃ rest, node.name.data = '_' :: rest) ↔ testUnderscore node.name = false := by
    rw [← testUnderscore_iff]; simp
  rw [hre, hcalls, hid]
  by_cases hA : (node.visibility = "private" ∨
      (node.visibility = "internal" ∧ p.kind ≠ some "library")) ∧
      testUnderscore node.name = false
  · rw [if_pos hA]
    exact ⟨⟨fun _ => hA, fun _ => rfl⟩, fun hn => absurd hA hn⟩
  · rw [if_neg hA]
    refine ⟨⟨fun heq => ?_, fun hc => absurd hc hA⟩, fun _ extra hex v hv => ?_⟩
    · exfalso
      split at heq
      · exact append_singleton_ne function_messages_differ.symm heq
      · rw [List.append_nil] at heq
        exact ne_append_singleton _ _ heq
    · have hextra := List.append_cancel_left hex
      rw [← hextra] at hv
      split at hv
      · rw [List.mem_singleton] at hv
        rw [hv]
        exact function_messages_differ.symm
      · cases hv

/-- Witness for C6: the internal function `f` of a contract is reported once. -/
theorem function_must_have_underscore_iff_witness :
    Base.constructor Host.sample LeadingUnderscore.kind Reporter.silent () ""
        "contracts/Token.sol"
      = .ok ⟨Reporter.silent, .bool false, .str "leading-underscore"⟩ ∧
    (JSVal.bool false).truthy = false ∧
    (⟨"internal", "f", some ⟨some "contract"⟩⟩ : FunctionDefinitionNode).parent
      = some ⟨some "contract"⟩ ∧
    (LeadingUnderscore.FunctionDefinition
        (⟨Reporter.silent, .bool false, .str "leading-underscore"⟩ : Base Unit Empty)
        ⟨"internal", "f", some ⟨some "contract"⟩⟩ ⟨(), []⟩).2.calls
      = [] ++ [⟨.FunctionDefinition ⟨"internal", "f", some ⟨some "contract"⟩⟩,
          .str "leading-underscore",
          "Private and internal functions must have leading underscore"⟩] :=
  ⟨rfl, rfl, rfl,
    (function_must_have_underscore_iff Host.sample Reporter.silent () ""
      "contracts/Token.sol" ⟨Reporter.silent, .bool false, .str "leading-underscore"⟩ rfl rfl
      ⟨"internal", "f", some ⟨some "contract"⟩⟩ ⟨some "contract"⟩ rfl ⟨(), []⟩).1.2
      ⟨Or.inr ⟨rfl, by decide⟩, by rintro ⟨rest, h⟩; simp at h⟩⟩

/-- C7: on an instance of `leading-underscore` that is not ignored and a
function definition with a parent, `FunctionDefinition(node)` reports
`'Library internal functions should not have leading underscore'` (one
invocation of the reporter, and no other one) if and only if `node.visibility`
is `'internal'`, `node.parent.kind` is `'library'` and `node.name` starts with
`_`; otherwise no invocation carries that message. -/
theorem library_function_reported_iff {σ ε κ : Type} (host : Host)
    (reporter : Reporter σ ε) (config : κ) (source fileName : String) (inst : Base σ ε)
    (hinst : Base.constructor host LeadingUnderscore.kind reporter config source fileName
      = .ok inst)
    (hlive : inst.ignored.truthy = false) (node : FunctionDefinitionNode) (p : ParentNode)
    (hp : node.parent = some p) (w : World σ) :
    ((LeadingUnderscore.FunctionDefinition inst node w).2.calls
        = w.calls ++ [⟨.FunctionDefinition node, .str "leading-underscore",
            "Library internal functions should not have leading underscore"⟩] ↔
      (node.visibility = "internal" ∧ p.kind = some "library" ∧
        ∃ rest, node.name.data = '_' :: rest)) ∧
    (¬ (node.visibility = "internal" ∧ p.kind = some "library" ∧
        ∃ rest, node.name.data = '_' :: rest) →
      ∀ extra, (LeadingUnderscore.FunctionDefinition inst node w).2.calls = w.calls ++ extra →
        ∀ v ∈ extra,
          v.message ≠ "Library internal functions should not have leading underscore") := by
  obtain ⟨-, hrule, -⟩ := Base.constructor_fields hinst
  have hid : inst.ruleId = .str "leading-underscore" := hrule
  have hcalls := LeadingUnderscore.FunctionDefinition_calls inst node p w hlive hp
  rw [← testUnderscore_iff, hcalls, hid]
  by_cases hA : (node.visibility = "private" ∨
      (node.visibility = "internal" ∧ p.kind ≠ some "library")) ∧
      testUnderscore node.name = false
  · have hB : ¬ (node.visibility = "internal" ∧ p.kind = some "library" ∧
        testUnderscore node.name = true) := by
      intro hB
      rw [hB.2.2] at hA
      exact absurd hA.2 (by decide)
    rw [if_pos hA]
    refine ⟨⟨fun heq => ?_, fun hc => absurd hc hB⟩, fun _ extra hex v hv => ?_⟩
    · exact absurd heq (append_singleton_ne function_messages_differ)
    · have hextra := List.append_cancel_left hex
      rw [← hextra, List.mem_singleton] at hv
      rw [hv]
      exact function_messages_differ
  · rw [if_neg hA]
    by_cases hB : (node.visibility = "internal" ∧ p.kind = some "library") ∧
        testUnderscore node.name = true
    · rw [if_pos hB]
      exact ⟨⟨fun _ => ⟨hB.1.1, hB.1.2, hB.2⟩, fun _ => rfl⟩,
        fun hn => absurd ⟨hB.1.1, hB.1.2, hB.2⟩ hn⟩
    · rw [if_neg hB]
      refine ⟨⟨fun heq => ?_, fun hc => absurd ⟨⟨hc.1, hc.2.1⟩, hc.2.2⟩ hB⟩,
        fun _ extra hex v hv => ?_⟩
      · rw [List.append_nil] at heq
        exact absurd heq (ne_append_singleton _ _)
      · have hextra := List.append_cancel_left hex
        rw [← hextra] at hv
        cases hv

/-- Witness for C7: the internal function `_f` of a library is reported once. -/
theorem library_function_reported_iff_witness :
    Base.constructor Host.sample LeadingUnderscore.kind Reporter.silent () ""
        "contracts/Math.sol"
      = .ok ⟨Reporter.silent, .bool false, .str "leading-underscore"⟩ ∧
    (JSVal.bool false).truthy = false ∧
    (⟨"internal", "_f", some ⟨some "library"⟩⟩ : FunctionDefinitionNode).parent
      = some ⟨some "library"⟩ ∧
    (LeadingUnderscore.FunctionDefinition
        (⟨Reporter.silent, .bool false, .str "leading-underscore"⟩ : Base Unit Empty)
        ⟨"internal", "_f", some ⟨some "library"⟩⟩ ⟨(), []⟩).2.calls
      = [] ++ [⟨.FunctionDefinition ⟨"internal", "_f", some ⟨some "library"⟩⟩,
          .str "leading-underscore",
          "Library internal functions should not have leading underscore"⟩] :=
  ⟨rfl, rfl, rfl,
    (library_function_reported_iff Host.sample Reporter.silent () ""
      "contracts/Math.sol" ⟨Reporter.silent, .bool false, .str "leading-underscore"⟩ rfl rfl
      ⟨"internal", "_f", some ⟨some "library"⟩⟩ ⟨some "library"⟩ rfl ⟨(), []⟩).1.2
      ⟨rfl, rfl, _, rfl⟩⟩

/-- C10: for a function definition whose visibility is neither `'private'` nor
`'internal'`, `FunctionDefinition(node)` completes normally without any
invocation of the reporter, for every name, every instance and every parent,
and also without a parent: neither condition reads `node.parent`. -/
theorem other_visibility_not_reported {σ ε : Type} (inst : Base σ ε)
    (node : FunctionDefinitionNode) (w : World σ)
    (hprivate : node.visibility ≠ "private") (hinternal : node.visibility ≠ "internal") :
    LeadingUnderscore.FunctionDefinition inst node w = (.normal, w) ∧
    (LeadingUnderscore.FunctionDefinition inst node w).2.calls = w.calls ∧
    LeadingUnderscore.mustHaveUnderscore node = (.ok false : Except (Thrown ε) Bool) ∧
    LeadingUnderscore.mustNotHaveUnderscore node = (.ok false : Except (Thrown ε) Bool) ∧
    (∀ parent : Option ParentNode,
      LeadingUnderscore.FunctionDefinition inst { node with parent := parent } w
        = (.normal, w)) := by
  have h1 : ∀ parent : Option ParentNode,
      LeadingUnderscore.mustHaveUnderscore { node with parent := parent }
        = (.ok false : Except (Thrown ε) Bool) := by
    intro parent
    simp [LeadingUnderscore.mustHaveUnderscore, hprivate, hinternal]
  have h2 : ∀ parent : Option ParentNode,
      LeadingUnderscore.mustNotHaveUnderscore { node with parent := parent }
        = (.ok false : Except (Thrown ε) Bool) := by
    intro parent
    simp [LeadingUnderscore.mustNotHaveUnderscore, hinternal]
  have hrun : ∀ parent : Option ParentNode,
      LeadingUnderscore.FunctionDefinition inst { node with parent := parent } w
        = (.normal, w) := by
    intro parent
    simp only [LeadingUnderscore.FunctionDefinition, seq,
      LeadingUnderscore.FunctionDefinition.first, LeadingUnderscore.FunctionDefinition.second,
      h1 parent, h2 parent]
  have hself := hrun node.parent
  exact ⟨hself, by rw [hself], h1 node.parent, h2 node.parent, hrun⟩

/-- Witness for C10: the public function `f` without a parent. -/
theorem other_visibility_not_reported_witness :
    (⟨"public", "f", none⟩ : FunctionDefinitionNode).visibility ≠ "private" ∧
    (⟨"public", "f", none⟩ : FunctionDefinitionNode).visibility ≠ "internal" ∧
    LeadingUnderscore.FunctionDefinition
        (⟨Reporter.silent, .bool false, .str "leading-underscore"⟩ : Base Unit Empty)
        ⟨"public", "f", none⟩ ⟨(), []⟩ = (.normal, ⟨(), []⟩) :=
  ⟨by decide, by decide,
    (other_visibility_not_reported
      (⟨Reporter.silent, .bool false, .str "leading-underscore"⟩ : Base Unit Empty)
      ⟨"public", "f", none⟩ ⟨(), []⟩ (by decide) (by decide)).1⟩

/-! ## Reporter failures and the rule identity -/

/-- C11 (counterexample): on the instance of `interface-names` made for
`contracts/Foo.sol` with a reporter that fails, the operation of the reporter
fails when invoked and `error(node, 'msg')` does not complete normally: it
throws the failure of the reporter. -/
theorem error_propagates_reporter_failure :
    ∃ inst : Base Unit String,
      Base.constructor Host.sample InterfaceNames.kind Reporter.failing () ""
        "contracts/Foo.sol" = .ok inst ∧
      (inst.reporter.error (.ContractDefinition ⟨"interface", "Foo"⟩) inst.ruleId "msg" ()).1
        = .error "reporter failure" ∧
      (inst.error (.ContractDefinition ⟨"interface", "Foo"⟩) "msg" ⟨(), []⟩).1
        = .throw (.fromReporter "reporter failure") ∧
      (inst.error (.ContractDefinition ⟨"interface", "Foo"⟩) "msg" ⟨(), []⟩).1 ≠ .normal :=
  ⟨_, rfl, rfl, rfl, by decide⟩

/-- C11 (amended): `error(node, message)` raises no failure of its own.  It
completes normally, leaving the world as it is, on an ignored instance; on an
instance that is not ignored it completes normally when the operation of the
reporter does, and it throws the failure of the reporter on to its caller when
that operation fails.  A throw of `error` is always such a failure. -/
theorem error_completes_as_reporter {σ ε : Type} (inst : Base σ ε) (node : Node)
    (message : String) (w : World σ) :
    (inst.ignored.truthy = true → inst.error node message w = (.normal, w)) ∧
    (inst.ignored.truthy = false → ∀ s,
      inst.reporter.error node inst.ruleId message w.reporterState = (.ok (), s) →
      inst.error node message w
        = (.normal, ⟨s, w.calls ++ [⟨node, inst.ruleId, message⟩]⟩)) ∧
    (inst.ignored.truthy = false → ∀ e s,
      inst.reporter.error node inst.ruleId message w.reporterState = (.error e, s) →
      inst.error node message w
        = (.throw (.fromReporter e), ⟨s, w.calls ++ [⟨node, inst.ruleId, message⟩]⟩)) ∧
    (∀ t, (inst.error node message w).1 = .throw t →
      inst.ignored.truthy = false ∧
      ∃ e, t = .fromReporter e ∧
        (inst.reporter.error node inst.ruleId message w.reporterState).1 = .error e) := by
  refine ⟨Base.error_of_ignored inst node message w, ?_, ?_, ?_⟩
  · intro hlive s hs
    rw [Base.error_of_not_ignored inst node message w hlive]
    simp [Reporter.invoke, hs]
  · intro hlive e s hs
    rw [Base.error_of_not_ignored inst node message w hlive]
    simp [Reporter.invoke, hs]
  · intro t ht
    cases hi : inst.ignored.truthy
    · refine ⟨rfl, ?_⟩
      rw [Base.error_of_not_ignored inst node message w hi] at ht
      unfold Reporter.invoke at ht
      rcases hr : inst.reporter.error node inst.ruleId message w.reporterState with ⟨r, s⟩
      rw [hr] at ht
      cases r with
      | ok u => simp at ht
      | error e =>
        simp only [Completion.throw.injEq] at ht
        exact ⟨e, ht.symm, rfl⟩
    · rw [Base.error_of_ignored inst node message w hi] at ht
      cases ht

/-- Witness for C11: with the reporter that fails, `error` throws its failure. -/
theorem error_completes_as_reporter_witness :
    (JSVal.bool false).truthy = false ∧
    Reporter.failing.error (.ContractDefinition ⟨"interface", "Foo"⟩)
        (.str "interface-names") "msg" () = (.error "reporter failure", ()) ∧
    Base.error (⟨Reporter.failing, .bool false, .str "interface-names"⟩ : Base Unit String)
        (.ContractDefinition ⟨"interface", "Foo"⟩) "msg" ⟨(), []⟩
      = (.throw (.fromReporter "reporter failure"),
          ⟨(), [] ++ [⟨.ContractDefinition ⟨"interface", "Foo"⟩, .str "interface-names",
            "msg"⟩]⟩) :=
  ⟨rfl, rfl,
    (error_completes_as_reporter
      (⟨Reporter.failing, .bool false, .str "interface-names"⟩ : Base Unit String)
      (.ContractDefinition ⟨"interface", "Foo"⟩) "msg" ⟨(), []⟩).2.2.1 rfl
      "reporter failure" () rfl⟩

/-- C12 (counterexample): a rule class that declares the empty string as its
`ruleId` is constructed without error, the `ruleId` of the instance is the empty
string, and `error` forwards a violation with that empty `ruleId`. -/
theorem constructor_accepts_empty_ruleId :
    ∃ inst : Base Unit Empty,
      Base.constructor Host.sample ⟨.undefined, .str ""⟩ Reporter.silent () ""
        "contracts/Token.sol" = .ok inst ∧
      inst.ruleId = .str "" ∧
      (inst.error (.ContractDefinition ⟨"contract", "Token"⟩) "msg" ⟨(), []⟩).2.calls
        = [⟨.ContractDefinition ⟨"contract", "Token"⟩, .str "", "msg"⟩] :=
  ⟨_, rfl, rfl, rfl⟩

/-- C12 (amended): if construction succeeds, the `ruleId` of the instance is the
`ruleId` declared by the rule class and is not `undefined`, and every
invocation of the reporter that `error` adds carries that `ruleId`: no
violation is forwarded with a missing `ruleId`. -/
theorem constructor_keeps_declared_ruleId {σ ε κ : Type} (host : Host) (kind : RuleKind)
    (reporter : Reporter σ ε) (config : κ) (source fileName : String) (inst : Base σ ε)
    (hinst : Base.constructor host kind reporter config source fileName = .ok inst) :
    inst.ruleId = kind.ruleId ∧
    inst.ruleId ≠ .undefined ∧
    (∀ node message (w : World σ),
      (inst.error node message w).2.calls = w.calls ∨
      (inst.error node message w).2.calls = w.calls ++ [⟨node, kind.ruleId, message⟩]) := by
  obtain ⟨-, hrule, -⟩ := Base.constructor_fields hinst
  have hdef : kind.ruleId ≠ .undefined := by
    intro hu
    unfold Base.constructor at hinst
    simp [hu] at hinst
  refine ⟨hrule, by rw [hrule]; exact hdef, ?_⟩
  intro node message w
  cases hi : inst.ignored.truthy
  · right
    rw [Base.error_of_not_ignored inst node message w hi, Reporter.invoke_calls, hrule]
  · left
    rw [Base.error_of_ignored inst node message w hi]

/-- Witness for C12: the class `interface-names` and the file `contracts/Foo.sol`. -/
theorem constructor_keeps_declared_ruleId_witness :
    Base.constructor Host.sample InterfaceNames.kind Reporter.silent () "" "contracts/Foo.sol"
      = .ok ⟨Reporter.silent, .bool false, .str "interface-names"⟩ ∧
    (⟨Reporter.silent, .bool false, .str "interface-names"⟩ : Base Unit Empty).ruleId
      = InterfaceNames.kind.ruleId ∧
    (⟨Reporter.silent, .bool false, .str "interface-names"⟩ : Base Unit Empty).ruleId
      ≠ .undefined :=
  ⟨rfl,
    (constructor_keeps_declared_ruleId Host.sample InterfaceNames.kind Reporter.silent () ""
      "contracts/Foo.sol" ⟨Reporter.silent, .bool false, .str "interface-names"⟩ rfl).1,
    (constructor_keeps_declared_ruleId Host.sample InterfaceNames.kind Reporter.silent () ""
      "contracts/Foo.sol" ⟨Reporter.silent, .bool false, .str "interface-names"⟩ rfl).2.1⟩

/-! ## The two conditions of `FunctionDefinition` -/

/-- When the first condition of `FunctionDefinition` holds, the second one is
evaluated without error and does not hold. -/
theorem LeadingUnderscore.mustNot_of_mustHave {ε : Type} (node : FunctionDefinitionNode)
    (h : (LeadingUnderscore.mustHaveUnderscore node : Except (Thrown ε) Bool) = .ok true) :
    (LeadingUnderscore.mustNotHaveUnderscore node : Except (Thrown ε) Bool) = .ok false := by
  unfold LeadingUnderscore.mustHaveUnderscore at h
  unfold LeadingUnderscore.mustNotHaveUnderscore
  by_cases hpriv : node.visibility = "private"
  · have hint : node.visibility ≠ "internal" := by rw [hpriv]; decide
    simp [hint]
  · by_cases hint : node.visibility = "internal"
    · simp only [hpriv, hint, beq_self_eq_true, if_true, beq_iff_eq, if_false] at h ⊢
      rcases hk : (LeadingUnderscore.parentKind node : Except (Thrown ε) (Option String))
        with t | k
      · rw [hk] at h
        cases h
      · rw [hk] at h
        have hne : ¬ ("internal" = "private") := by decide
        simp only [hne, if_false, Except.ok.injEq, bne_iff_ne, ne_eq] at h
        simp [h]
    · simp [hpriv, hint] at h

/-- The callback with two `if` statements and the variant with `else if` end in
the same way and leave the same world, for every instance and every node. -/
theorem LeadingUnderscore.FunctionDefinition_eq_elseIf {σ ε : Type} (this : Base σ ε)
    (node : FunctionDefinitionNode) (w : World σ) :
    LeadingUnderscore.FunctionDefinition this node w
      = LeadingUnderscore.FunctionDefinitionElseIf this node w := by
  unfold LeadingUnderscore.FunctionDefinitionElseIf
  rcases hc : (LeadingUnderscore.mustHaveUnderscore node : Except (Thrown ε) Bool)
    with t | b
  · simp [LeadingUnderscore.FunctionDefinition, seq, LeadingUnderscore.FunctionDefinition.first,
      hc]
  · cases b
    · simp [LeadingUnderscore.FunctionDefinition, seq,
        LeadingUnderscore.FunctionDefinition.first, LeadingUnderscore.FunctionDefinition.second,
        hc]
    · have hsecond : ∀ w1, LeadingUnderscore.FunctionDefinition.second this node w1
          = (.normal, w1) := by
        intro w1
        simp [LeadingUnderscore.FunctionDefinition.second,
          LeadingUnderscore.mustNot_of_mustHave node hc]
      unfold LeadingUnderscore.FunctionDefinition
      rw [seq_skip _ _ _ hsecond]
      simp [LeadingUnderscore.FunctionDefinition.first, hc]

/-- What `FunctionDefinition` does on a private function: the parent is not read. -/
theorem LeadingUnderscore.FunctionDefinition_private {σ ε : Type} (this : Base σ ε)
    (node : FunctionDefinitionNode) (w : World σ) (h : node.visibility = "private") :
    LeadingUnderscore.FunctionDefinition this node w =
      if testUnderscore node.name = true then (.normal, w)
      else this.error (.FunctionDefinition node)
        "Private and internal functions must have leading underscore" w := by
  rw [LeadingUnderscore.FunctionDefinition_eq_elseIf]
  unfold LeadingUnderscore.FunctionDefinitionElseIf
  have hc : (LeadingUnderscore.mustHaveUnderscore node : Except (Thrown ε) Bool) = .ok true := by
    simp [LeadingUnderscore.mustHaveUnderscore, h]
  rw [hc]
  cases testUnderscore node.name <;> simp

/-! ## What a callback hands to the reporter -/

/-- A statement that either leaves the world as it is or is one call of `error`
on the node: the invocations it adds do not depend on the world, are at most
one, carry the node and the `ruleId` of the instance, and are none on an
ignored instance. -/
theorem reports_of_skip_or_error {σ ε : Type} (this : Base σ ε) (node : Node)
    (cb : World σ → Completion ε × World σ)
    (h : (∃ c, ∀ w, cb w = (c, w)) ∨ (∃ m, ∀ w, cb w = this.error node m w)) :
    ∃ vs : List Violation, vs.length ≤ 1 ∧
      (∀ v ∈ vs, v.node = node ∧ v.ruleId = this.ruleId) ∧
      (this.ignored.truthy = true → vs = []) ∧
      ∀ w, (cb w).2.calls = w.calls ++ vs := by
  rcases h with ⟨c, hc⟩ | ⟨m, hm⟩
  · exact ⟨[], by simp, by simp, fun _ => rfl, fun w => by rw [hc w]; simp⟩
  · cases hi : this.ignored.truthy
    · refine ⟨[⟨node, this.ruleId, m⟩], by simp, ?_, by simp, fun w => ?_⟩
      · intro v hv
        rw [List.mem_singleton] at hv
        rw [hv]
        exact ⟨rfl, rfl⟩
      · rw [hm w, Base.error_of_not_ignored this node m w hi, Reporter.invoke_calls]
    · refine ⟨[], by simp, by simp, fun _ => rfl, fun w => ?_⟩
      rw [hm w, Base.error_of_ignored this node m w hi]
      simp

/-- The callback `ContractDefinition` is a skip or one call of `error`. -/
theorem InterfaceNames.ContractDefinition_shape {σ ε : Type} (this : Base σ ε)
    (node : ContractDefinitionNode) :
    (∃ c, ∀ w : World σ, InterfaceNames.ContractDefinition this node w
        = ((c : Completion ε), w)) ∨
    (∃ m, ∀ w : World σ, InterfaceNames.ContractDefinition this node w
        = this.error (.ContractDefinition node) m w) := by
  unfold InterfaceNames.ContractDefinition
  cases (node.kind == "interface" && !testIUpper node.name)
  · exact Or.inl ⟨.normal, fun w => by simp⟩
  · exact Or.inr
      ⟨"Interface names should have a capital I prefix", fun w => by simp⟩

/-- The callback `VariableDeclaration` is a skip or one call of `error`. -/
theorem LeadingUnderscore.VariableDeclaration_shape {σ ε : Type} (this : Base σ ε)
    (node : VariableDeclarationNode) :
    (∃ c, ∀ w : World σ, LeadingUnderscore.VariableDeclaration this node w
        = ((c : Completion ε), w)) ∨
    (∃ m, ∀ w : World σ, LeadingUnderscore.VariableDeclaration this node w
        = this.error (.VariableDeclaration node) m w) := by
  unfold LeadingUnderscore.VariableDeclaration
  cases node.isDeclaredConst
  · cases (node.visibility == "private" && !testUnderscore node.name)
    · exact Or.inl ⟨.normal, fun w => by simp⟩
    · exact Or.inr
        ⟨"Non-constant private variables must have leading underscore", fun w => by simp⟩
  · cases testUnderscore node.name
    · exact Or.inl ⟨.normal, fun w => by simp⟩
    · exact Or.inr
        ⟨"Constant variables should not have leading underscore", fun w => by simp⟩

/-- The callback `FunctionDefinition` is a skip, a throw or one call of `error`. -/
theorem LeadingUnderscore.FunctionDefinition_shape {σ ε : Type} (this : Base σ ε)
    (node : FunctionDefinitionNode) :
    (∃ c, ∀ w : World σ, LeadingUnderscore.FunctionDefinition this node w
        = ((c : Completion ε), w)) ∨
    (∃ m, ∀ w : World σ, LeadingUnderscore.FunctionDefinition this node w
        = this.error (.FunctionDefinition node) m w) := by
  simp only [LeadingUnderscore.FunctionDefinition_eq_elseIf]
  unfold LeadingUnderscore.FunctionDefinitionElseIf
  rcases (LeadingUnderscore.mustHaveUnderscore node : Except (Thrown ε) Bool) with t | b
  · exact Or.inl ⟨.throw t, fun w => rfl⟩
  · cases b
    · rcases (LeadingUnderscore.mustNotHaveUnderscore node : Except (Thrown ε) Bool)
        with t | b
      · exact Or.inl ⟨.throw t, fun w => rfl⟩
      · cases b
        · exact Or.inl ⟨.normal, fun w => rfl⟩
        · cases testUnderscore node.name
          · exact Or.inl ⟨.normal, fun w => by simp⟩
          · exact Or.inr
              ⟨"Library internal functions should not have leading underscore", fun w => by simp⟩
    · cases testUnderscore node.name
      · exact Or.inr
          ⟨"Private and internal functions must have leading underscore", fun w => by simp⟩
      · exact Or.inl ⟨.normal, fun w => by simp⟩

/-! ## The receiver after a call -/

/-- The method `error` on a state: the completion and the world are those of
`Base.error`, and the receiver is left as it is. -/
theorem Stateful.error_eq {σ ε : Type} (node : Node) (message : String)
    (st : Stateful.State σ ε) :
    Stateful.error node message st =
      ((st.this.error node message st.world).1,
        ⟨st.this, (st.this.error node message st.world).2⟩) := by
  unfold Stateful.error Base.error
  cases st.this.ignored.truthy <;> simp

/-- The callback `ContractDefinition` on a state. -/
theorem Stateful.ContractDefinition_eq {σ ε : Type} (node : ContractDefinitionNode)
    (st : Stateful.State σ ε) :
    Stateful.ContractDefinition node st =
      ((InterfaceNames.ContractDefinition st.this node st.world).1,
        ⟨st.this, (InterfaceNames.ContractDefinition st.this node st.world).2⟩) := by
  unfold Stateful.ContractDefinition InterfaceNames.ContractDefinition
  rw [Stateful.error_eq]
  cases (node.kind == "interface" && !testIUpper node.name) <;> simp

/-- The callback `VariableDeclaration` on a state. -/
theorem Stateful.VariableDeclaration_eq {σ ε : Type} (node : VariableDeclarationNode)
    (st : Stateful.State σ ε) :
    Stateful.VariableDeclaration node st =
      ((LeadingUnderscore.VariableDeclaration st.this node st.world).1,
        ⟨st.this, (LeadingUnderscore.VariableDeclaration st.this node st.world).2⟩) := by
  unfold Stateful.VariableDeclaration LeadingUnderscore.VariableDeclaration
  rw [Stateful.error_eq, Stateful.error_eq]
  cases node.isDeclaredConst <;> cases testUnderscore node.name <;>
    cases (node.visibility == "private") <;> simp

/-- The first `if` statement of `FunctionDefinition` on a state. -/
theorem Stateful.FunctionDefinition_first_eq {σ ε : Type} (node : FunctionDefinitionNode)
    (st : Stateful.State σ ε) :
    Stateful.FunctionDefinition.first node st =
      ((LeadingUnderscore.FunctionDefinition.first st.this node st.world).1,
        ⟨st.this, (LeadingUnderscore.FunctionDefinition.first st.this node st.world).2⟩) := by
  unfold Stateful.FunctionDefinition.first LeadingUnderscore.FunctionDefinition.first
  rw [Stateful.error_eq]
  rcases (LeadingUnderscore.mustHaveUnderscore node : Except (Thrown ε) Bool) with t | b
  · rfl
  · cases b <;> cases testUnderscore node.name <;> simp

/-- The second `if` statement of `FunctionDefinition` on a state. -/
theorem Stateful.FunctionDefinition_second_eq {σ ε : Type} (node : FunctionDefinitionNode)
    (st : Stateful.State σ ε) :
    Stateful.FunctionDefinition.second node st =
      ((LeadingUnderscore.FunctionDefinition.second st.this node st.world).1,
        ⟨st.this, (LeadingUnderscore.FunctionDefinition.second st.this node st.world).2⟩) := by
  unfold Stateful.FunctionDefinition.second LeadingUnderscore.FunctionDefinition.second
  rw [Stateful.error_eq]
  rcases (LeadingUnderscore.mustNotHaveUnderscore node : Except (Thrown ε) Bool) with t | b
  · rfl
  · cases b <;> cases testUnderscore node.name <;> simp

/-- The callback `FunctionDefinition` on a state. -/
theorem Stateful.FunctionDefinition_eq {σ ε : Type} (node : FunctionDefinitionNode)
    (st : Stateful.State σ ε) :
    Stateful.FunctionDefinition node st =
      ((LeadingUnderscore.FunctionDefinition st.this node st.world).1,
        ⟨st.this, (LeadingUnderscore.FunctionDefinition st.this node st.world).2⟩) := by
  unfold Stateful.FunctionDefinition Stateful.seq LeadingUnderscore.FunctionDefinition
    SolhintCustom.seq
  rw [Stateful.FunctionDefinition_first_eq]
  rcases LeadingUnderscore.FunctionDefinition.first st.this node st.world with ⟨c, w1⟩
  cases c
  · simp only
    rw [Stateful.FunctionDefinition_second_eq]
  · rfl

/-- Two calls in a row of a method that leaves its receiver as it is and whose
added invocations do not depend on the world: the receiver keeps its fields
through both calls and the second call adds what the first one added. -/
theorem Stateful.twice {σ ε : Type} (node : Node)
    (cb : Stateful.State σ ε → Completion ε × Stateful.State σ ε)
    (body : Base σ ε → World σ → Completion ε × World σ)
    (heq : ∀ st, cb st = ((body st.this st.world).1, ⟨st.this, (body st.this st.world).2⟩))
    (hshape : ∀ this, (∃ c, ∀ w, body this w = (c, w)) ∨
      (∃ m, ∀ w, body this w = this.error node m w))
    (st : Stateful.State σ ε) :
    ∃ vs : List Violation, vs.length ≤ 1 ∧
      (∀ v ∈ vs, v.node = node ∧ v.ruleId = st.this.ruleId) ∧
      (st.this.ignored.truthy = true → vs = []) ∧
      (cb st).2.world.calls = st.world.calls ++ vs ∧
      (cb (cb st).2).2.world.calls = (cb st).2.world.calls ++ vs ∧
      (cb st).2.this.ignored = st.this.ignored ∧
      (cb st).2.this.ruleId = st.this.ruleId ∧
      (cb (cb st).2).2.this.ignored = st.this.ignored ∧
      (cb (cb st).2).2.this.ruleId = st.this.ruleId := by
  obtain ⟨vs, hlen, hmem, hign, hall⟩ :=
    reports_of_skip_or_error st.this node (body st.this) (hshape st.this)
  have h1 : (cb st).2.this = st.this := by rw [heq st]
  have h2 : (cb (cb st).2).2.this = st.this := by rw [heq (cb st).2, h1]
  have hw1 : (cb st).2.world = (body st.this st.world).2 := by rw [heq st]
  have hw2 : (cb (cb st).2).2.world = (body st.this (cb st).2.world).2 := by
    rw [heq (cb st).2, h1]
  refine ⟨vs, hlen, hmem, hign, ?_, ?_, by rw [h1], by rw [h1], by rw [h2], by rw [h2]⟩
  · rw [hw1, hall]
  · rw [hw2, hall]

/-! ## Claims on determinism and on the structure of `FunctionDefinition` -/

/-- C13: for every instance, every world, every callback (`ContractDefinition`,
`VariableDeclaration`, `FunctionDefinition`) and every node, with the callback
run as a method on the state that holds the fields of the instance: the
`ignored` flag and the `ruleId` of the instance are after the first call, and
after a second call made in the state left by the first, what they were
before; and the second call hands the reporter the same violations as the
first one did, the same list `vs` of at most one violation, each on the node
and with the `ruleId` of the instance, and empty when the instance is
ignored. -/
theorem callbacks_deterministic {σ ε : Type} (st : Stateful.State σ ε) :
    (∀ node : ContractDefinitionNode, ∃ vs : List Violation, vs.length ≤ 1 ∧
      (∀ v ∈ vs, v.node = .ContractDefinition node ∧ v.ruleId = st.this.ruleId) ∧
      (st.this.ignored.truthy = true → vs = []) ∧
      (Stateful.ContractDefinition node st).2.world.calls = st.world.calls ++ vs ∧
      (Stateful.ContractDefinition node (Stateful.ContractDefinition node st).2).2.world.calls
        = (Stateful.ContractDefinition node st).2.world.calls ++ vs ∧
      (Stateful.ContractDefinition node st).2.this.ignored = st.this.ignored ∧
      (Stateful.ContractDefinition node st).2.this.ruleId = st.this.ruleId ∧
      (Stateful.ContractDefinition node (Stateful.ContractDefinition node st).2).2.this.ignored
        = st.this.ignored ∧
      (Stateful.ContractDefinition node (Stateful.ContractDefinition node st).2).2.this.ruleId
        = st.this.ruleId) ∧
    (∀ node : VariableDeclarationNode, ∃ vs : List Violation, vs.length ≤ 1 ∧
      (∀ v ∈ vs, v.node = .VariableDeclaration node ∧ v.ruleId = st.this.ruleId) ∧
      (st.this.ignored.truthy = true → vs = []) ∧
      (Stateful.VariableDeclaration node st).2.world.calls = st.world.calls ++ vs ∧
      (Stateful.VariableDeclaration node (Stateful.VariableDeclaration node st).2).2.world.calls
        = (Stateful.VariableDeclaration node st).2.world.calls ++ vs ∧
      (Stateful.VariableDeclaration node st).2.this.ignored = st.this.ignored ∧
      (Stateful.VariableDeclaration node st).2.this.ruleId = st.this.ruleId ∧
      (Stateful.VariableDeclaration node (Stateful.VariableDeclaration node st).2).2.this.ignored
        = st.this.ignored ∧
      (Stateful.VariableDeclaration node (Stateful.VariableDeclaration node st).2).2.this.ruleId
        = st.this.ruleId) ∧
    (∀ node : FunctionDefinitionNode, ∃ vs : List Violation, vs.length ≤ 1 ∧
      (∀ v ∈ vs, v.node = .FunctionDefinition node ∧ v.ruleId = st.this.ruleId) ∧
      (st.this.ignored.truthy = true → vs = []) ∧
      (Stateful.FunctionDefinition node st).2.world.calls = st.world.calls ++ vs ∧
      (Stateful.FunctionDefinition node (Stateful.FunctionDefinition node st).2).2.world.calls
        = (Stateful.FunctionDefinition node st).2.world.calls ++ vs ∧
      (Stateful.FunctionDefinition node st).2.this.ignored = st.this.ignored ∧
      (Stateful.FunctionDefinition node st).2.this.ruleId = st.this.ruleId ∧
      (Stateful.FunctionDefinition node (Stateful.FunctionDefinition node st).2).2.this.ignored
        = st.this.ignored ∧
      (Stateful.FunctionDefinition node (Stateful.FunctionDefinition node st).2).2.this.ruleId
        = st.this.ruleId) :=
  ⟨fun node => Stateful.twice (.ContractDefinition node) _
      (fun this => InterfaceNames.ContractDefinition this node)
      (Stateful.ContractDefinition_eq node)
      (fun this => InterfaceNames.ContractDefinition_shape this node) st,
    fun node => Stateful.twice (.VariableDeclaration node) _
      (fun this => LeadingUnderscore.VariableDeclaration this node)
      (Stateful.VariableDeclaration_eq node)
      (fun this => LeadingUnderscore.VariableDeclaration_shape this node) st,
    fun node => Stateful.twice (.FunctionDefinition node) _
      (fun this => LeadingUnderscore.FunctionDefinition this node)
      (Stateful.FunctionDefinition_eq node)
      (fun this => LeadingUnderscore.FunctionDefinition_shape this node) st⟩

/-- C14: for a function definition with a parent, the two conditions of
`FunctionDefinition` are evaluated without error and are never both true, a
call adds at most one invocation of the reporter, and the callback ends in the
same way and leaves the same world as the variant in which the second `if` is
the `else if` of the first. -/
theorem function_conditions_disjoint {σ ε : Type} (inst : Base σ ε)
    (node : FunctionDefinitionNode) (p : ParentNode) (hp : node.parent = some p)
    (w : World σ) :
    ((LeadingUnderscore.mustHaveUnderscore node : Except (Thrown ε) Bool) = .ok true ↔
      (node.visibility = "private" ∨
        (node.visibility = "internal" ∧ p.kind ≠ some "library"))) ∧
    ((LeadingUnderscore.mustNotHaveUnderscore node : Except (Thrown ε) Bool) = .ok true ↔
      (node.visibility = "internal" ∧ p.kind = some "library")) ∧
    ¬ ((node.visibility = "private" ∨
          (node.visibility = "internal" ∧ p.kind ≠ some "library")) ∧
        (node.visibility = "internal" ∧ p.kind = some "library")) ∧
    (∃ vs : List Violation, vs.length ≤ 1 ∧
      (LeadingUnderscore.FunctionDefinition inst node w).2.calls = w.calls ++ vs) ∧
    LeadingUnderscore.FunctionDefinition inst node w
      = LeadingUnderscore.FunctionDefinitionElseIf inst node w := by
  have hne : ¬ ("private" = "internal") := by decide
  refine ⟨?_, ?_, ?_, ?_, LeadingUnderscore.FunctionDefinition_eq_elseIf inst node w⟩
  · unfold LeadingUnderscore.mustHaveUnderscore LeadingUnderscore.parentKind
    rw [hp]
    by_cases hpriv : node.visibility = "private"
    · simp [hpriv]
    · by_cases hint : node.visibility = "internal"
      · by_cases hlib : p.kind = some "library" <;> simp [hpriv, hint, hlib]
      · simp [hpriv, hint]
  · unfold LeadingUnderscore.mustNotHaveUnderscore LeadingUnderscore.parentKind
    rw [hp]
    by_cases hint : node.visibility = "internal"
    · by_cases hlib : p.kind = some "library" <;> simp [hint, hlib]
    · simp [hint]
  · rintro ⟨h1 | h1, h2⟩
    · rw [h2.1] at h1
      exact hne h1.symm
    · exact h1.2 h2.2
  · obtain ⟨vs, hlen, -, -, hall⟩ :=
      reports_of_skip_or_error inst (.FunctionDefinition node) _
        (LeadingUnderscore.FunctionDefinition_shape inst node)
    exact ⟨vs, hlen, hall w⟩

/-- Witness for C14: the internal function `_f` of a library. -/
theorem function_conditions_disjoint_witness :
    (⟨"internal", "_f", some ⟨some "library"⟩⟩ : FunctionDefinitionNode).parent
      = some ⟨some "library"⟩ ∧
    LeadingUnderscore.FunctionDefinition
        (⟨Reporter.silent, .bool false, .str "leading-underscore"⟩ : Base Unit Empty)
        ⟨"internal", "_f", some ⟨some "library"⟩⟩ ⟨(), []⟩
      = LeadingUnderscore.FunctionDefinitionElseIf
        (⟨Reporter.silent, .bool false, .str "leading-underscore"⟩ : Base Unit Empty)
        ⟨"internal", "_f", some ⟨some "library"⟩⟩ ⟨(), []⟩ :=
  ⟨rfl,
    (function_conditions_disjoint
      (⟨Reporter.silent, .bool false, .str "leading-underscore"⟩ : Base Unit Empty)
      ⟨"internal", "_f", some ⟨some "library"⟩⟩ ⟨some "library"⟩ rfl ⟨(), []⟩).2.2.2.2⟩

/-- One invocation of the reporter never ends in a `TypeError`. -/
theorem Reporter.invoke_not_typeError {σ ε : Type} (r : Reporter σ ε) (node : Node)
    (ruleId : JSVal) (message : String) (w : World σ) :
    (r.invoke node ruleId message w).1 ≠ .throw .TypeError := by
  unfold Reporter.invoke
  split <;> simp

/-- C15 (counterexample): on the instance of `leading-underscore` made for
`test/Token.sol`, which is ignored, the private function `f` of a library has a
name that does not start with `_` and yet `FunctionDefinition` makes no
invocation of the reporter. -/
theorem private_function_on_ignored_instance :
    ∃ inst : Base Unit Empty,
      Base.constructor Host.sample LeadingUnderscore.kind Reporter.silent () ""
        "test/Token.sol" = .ok inst ∧
      (⟨"private", "f", some ⟨some "library"⟩⟩ : FunctionDefinitionNode).visibility
        = "private" ∧
      (¬ ∃ rest, (⟨"private", "f", some ⟨some "library"⟩⟩ : FunctionDefinitionNode).name.data
        = '_' :: rest) ∧
      LeadingUnderscore.FunctionDefinition inst ⟨"private", "f", some ⟨some "library"⟩⟩
        ⟨(), []⟩ = (.normal, ⟨(), []⟩) ∧
      (LeadingUnderscore.FunctionDefinition inst ⟨"private", "f", some ⟨some "library"⟩⟩
        ⟨(), []⟩).2.calls = [] :=
  ⟨_, rfl, rfl, by rintro ⟨rest, h⟩; simp at h, rfl, rfl⟩

/-- C15 (amended): for every instance and every function definition whose
visibility is `'private'`, `FunctionDefinition(node)` makes exactly one
invocation of the reporter, with the `ruleId` of the instance and the message
`'Private and internal functions must have leading underscore'`, if and only if
the instance is not ignored and `node.name` does not start with `_`; otherwise
it completes normally and does nothing.  The same holds with any other parent
in place of the one of the node, a library and no parent included, with the
same number of invocations and never a `TypeError`; no invocation that is added
carries the message `'Library internal functions should not have leading
underscore'`.  On an instance made from the class `leading-underscore` the
`ruleId` is `'leading-underscore'`. -/
theorem private_function_ignores_parent {σ ε : Type} (inst : Base σ ε)
    (node : FunctionDefinitionNode) (hprivate : node.visibility = "private") (w : World σ) :
    ((LeadingUnderscore.FunctionDefinition inst node w).2.calls
        = w.calls ++ [⟨.FunctionDefinition node, inst.ruleId,
            "Private and internal functions must have leading underscore"⟩] ↔
      (inst.ignored.truthy = false ∧ ¬ ∃ rest, node.name.data = '_' :: rest)) ∧
    (¬ (inst.ignored.truthy = false ∧ ¬ ∃ rest, node.name.data = '_' :: rest) →
      LeadingUnderscore.FunctionDefinition inst node w = (.normal, w)) ∧
    (∀ parent : Option ParentNode,
      ((LeadingUnderscore.FunctionDefinition inst { node with parent := parent } w).2.calls
          = w.calls ++ [⟨.FunctionDefinition { node with parent := parent }, inst.ruleId,
              "Private and internal functions must have leading underscore"⟩] ↔
        (inst.ignored.truthy = false ∧ ¬ ∃ rest, node.name.data = '_' :: rest)) ∧
      (¬ (inst.ignored.truthy = false ∧ ¬ ∃ rest, node.name.data = '_' :: rest) →
        LeadingUnderscore.FunctionDefinition inst { node with parent := parent } w
          = (.normal, w)) ∧
      (LeadingUnderscore.FunctionDefinition inst { node with parent := parent } w).2.calls.length
        = (LeadingUnderscore.FunctionDefinition inst node w).2.calls.length ∧
      (LeadingUnderscore.FunctionDefinition inst { node with parent := parent } w).1
        ≠ .throw .TypeError) ∧
    (∀ extra, (LeadingUnderscore.FunctionDefinition inst node w).2.calls = w.calls ++ extra →
      ∀ v ∈ extra,
        v.message ≠ "Library internal functions should not have leading underscore") ∧
    (∀ (κ : Type) (host : Host) (reporter : Reporter σ ε) (config : κ)
        (source fileName : String),
      Base.constructor host LeadingUnderscore.kind reporter config source fileName = .ok inst →
      inst.ruleId = .str "leading-underscore") := by
  have hre : ∀ n : FunctionDefinitionNode,
      (inst.ignored.truthy = false ∧ ¬ ∃ rest, n.name.data = '_' :: rest) ↔
        (inst.ignored.truthy = false ∧ testUnderscore n.name = false) := by
    intro n
    rw [← testUnderscore_iff]; simp
  have hyes : ∀ n : FunctionDefinitionNode, n.visibility = "private" →
      inst.ignored.truthy = false ∧ testUnderscore n.name = false →
      LeadingUnderscore.FunctionDefinition inst n w
        = inst.reporter.invoke (.FunctionDefinition n) inst.ruleId
            "Private and internal functions must have leading underscore" w := by
    intro n hn hc
    rw [LeadingUnderscore.FunctionDefinition_private inst n w hn, if_neg (by simp [hc.2]),
      Base.error_of_not_ignored _ _ _ _ hc.1]
  have hno : ∀ n : FunctionDefinitionNode, n.visibility = "private" →
      ¬ (inst.ignored.truthy = false ∧ testUnderscore n.name = false) →
      LeadingUnderscore.FunctionDefinition inst n w = (.normal, w) := by
    intro n hn hc
    rw [LeadingUnderscore.FunctionDefinition_private inst n w hn]
    cases ht : testUnderscore n.name
    · have hi : inst.ignored.truthy = true := by
        cases hi : inst.ignored.truthy
        · exact absurd ⟨hi, ht⟩ hc
        · rfl
      rw [if_neg (by simp), Base.error_of_ignored _ _ _ _ hi]
    · rw [if_pos rfl]
  have hiff : ∀ n : FunctionDefinitionNode, n.visibility = "private" →
      ((LeadingUnderscore.FunctionDefinition inst n w).2.calls
          = w.calls ++ [⟨.FunctionDefinition n, inst.ruleId,
              "Private and internal functions must have leading underscore"⟩] ↔
        (inst.ignored.truthy = false ∧ testUnderscore n.name = false)) := by
    intro n hn
    constructor
    · intro hcalls
      by_contra hc
      rw [hno n hn hc] at hcalls
      exact ne_append_singleton _ _ hcalls
    · intro hc
      rw [hyes n hn hc, Reporter.invoke_calls]
  refine ⟨(hiff node hprivate).trans (hre node).symm,
    fun hc => hno node hprivate (fun h => hc ((hre node).mpr h)), ?_, ?_, ?_⟩
  · intro parent
    refine ⟨(hiff { node with parent := parent } hprivate).trans (hre node).symm,
      fun hc => hno { node with parent := parent } hprivate (fun h => hc ((hre node).mpr h)),
      ?_, ?_⟩
    · by_cases hc : inst.ignored.truthy = false ∧ testUnderscore node.name = false
      · rw [hyes { node with parent := parent } hprivate hc, hyes node hprivate hc,
          Reporter.invoke_calls, Reporter.invoke_calls]
        simp
      · rw [hno { node with parent := parent } hprivate hc, hno node hprivate hc]
    · by_cases hc : inst.ignored.truthy = false ∧ testUnderscore node.name = false
      · rw [hyes { node with parent := parent } hprivate hc]
        exact Reporter.invoke_not_typeError _ _ _ _ _
      · rw [hno { node with parent := parent } hprivate hc]
        simp
  · intro extra hex v hv
    by_cases hc : inst.ignored.truthy = false ∧ testUnderscore node.name = false
    · rw [hyes node hprivate hc, Reporter.invoke_calls] at hex
      have hextra := List.append_cancel_left hex
      rw [← hextra, List.mem_singleton] at hv
      rw [hv]
      exact function_messages_differ
    · rw [hno node hprivate hc] at hex
      have hextra : extra = [] := by
        have := congrArg List.length hex
        simp at this
        exact this
      rw [hextra] at hv
      cases hv
  · intro κ host reporter config source fileName hinst
    exact (Base.constructor_fields hinst).2.1

/-- Witness for C15: the private function `f` of a library is reported once on
an instance that is not ignored. -/
theorem private_function_ignores_parent_witness :
    (⟨"private", "f", some ⟨some "library"⟩⟩ : FunctionDefinitionNode).visibility
      = "private" ∧
    (LeadingUnderscore.FunctionDefinition
        (⟨Reporter.silent, .bool false, .str "leading-underscore"⟩ : Base Unit Empty)
        ⟨"private", "f", some ⟨some "library"⟩⟩ ⟨(), []⟩).2.calls
      = [] ++ [⟨.FunctionDefinition ⟨"private", "f", some ⟨some "library"⟩⟩,
          .str "leading-underscore",
          "Private and internal functions must have leading underscore"⟩] :=
  ⟨rfl,
    (private_function_ignores_parent
      (⟨Reporter.silent, .bool false, .str "leading-underscore"⟩ : Base Unit Empty)
      ⟨"private", "f", some ⟨some "library"⟩⟩ rfl ⟨(), []⟩).1.2
      ⟨rfl, by rintro ⟨rest, h⟩; simp at h⟩⟩

/-! ## The examples of the specification, evaluated -/

/-- The interface `IFoo` is not reported. -/
theorem example_interface_IFoo :
    (InterfaceNames.ContractDefinition
        (⟨Reporter.silent, .bool false, .str "interface-names"⟩ : Base Unit Empty)
        ⟨"interface", "IFoo"⟩ ⟨(), []⟩).2.calls = [] := by
  decide

/-- The contract `Foo` is not reported. -/
theorem example_contract_Foo :
    (InterfaceNames.ContractDefinition
        (⟨Reporter.silent, .bool false, .str "interface-names"⟩ : Base Unit Empty)
        ⟨"contract", "Foo"⟩ ⟨(), []⟩).2.calls = [] := by
  decide

/-- The interface `I` is reported. -/
theorem example_interface_I :
    (InterfaceNames.ContractDefinition
        (⟨Reporter.silent, .bool false, .str "interface-names"⟩ : Base Unit Empty)
        ⟨"interface", "I"⟩ ⟨(), []⟩).2.calls.length = 1 := by
  decide

/-- The constant `X` is not reported, also when it is private. -/
theorem example_constant_X :
    (LeadingUnderscore.VariableDeclaration
        (⟨Reporter.silent, .bool false, .str "leading-underscore"⟩ : Base Unit Empty)
        ⟨true, "private", "X"⟩ ⟨(), []⟩).2.calls = [] := by
  decide

/-- The private variable `_x` is not reported. -/
theorem example_private_x_underscore :
    (LeadingUnderscore.VariableDeclaration
        (⟨Reporter.silent, .bool false, .str "leading-underscore"⟩ : Base Unit Empty)
        ⟨false, "private", "_x"⟩ ⟨(), []⟩).2.calls = [] := by
  decide

/-- The internal function `f` of a library is not reported. -/
theorem example_library_f :
    (LeadingUnderscore.FunctionDefinition
        (⟨Reporter.silent, .bool false, .str "leading-underscore"⟩ : Base Unit Empty)
        ⟨"internal", "f", some ⟨some "library"⟩⟩ ⟨(), []⟩).2.calls = [] := by
  decide

/-- An internal function without a parent makes `FunctionDefinition` throw a
`TypeError`. -/
theorem example_internal_without_parent :
    (LeadingUnderscore.FunctionDefinition
        (⟨Reporter.silent, .bool false, .str "leading-underscore"⟩ : Base Unit Empty)
        ⟨"internal", "f", none⟩ ⟨(), []⟩).1 = .throw .TypeError := by
  decide

end SolhintCustom
